import Mathlib

/-!
# Verification of the urban-wheels request-governance layer

Shallow embedding of the dual-backend cache and rate limiter of
`src/lib/redis/{rate-limit.ts, cache.ts, client.ts}`.

Modelling conventions:
* Keys and stored payloads are `List Char` (called `Str` below), so that the
  prefix/glob reasoning of `delPattern` is structural.
* JS `Map<string, _>` becomes an association list with JS `Map.set`
  (replace-first) semantics; `Map.delete` removes the entry for a key.
* Time is an explicit parameter: `tms` is `Date.now()` in milliseconds,
  `now = tms / 1000` is the unix-seconds clock used by the rate limiter.
* The durable (Upstash Redis) backend is modelled as an association list of
  entries with absolute expiry; `GET`/`SETEX`/`INCR`+`EXPIRE`/`KEYS`/`DEL`
  follow Redis semantics (an entry is live while `now < expiresAt`; `KEYS`
  never reports expired entries).  Rate-limit keys hold counters and cache
  keys hold strings; the two key namespaces are disjoint in the source
  (distinct prefixes), so they are embedded as separate stores.
* `JSON.stringify` / `JSON.parse` are abstract parameters `enc : α → Str`,
  `dec : Str → Option α` of the cache operations; `dec` returning `none`
  models a `JSON.parse` exception being caught.
-/

namespace UrbanWheels

/-- Strings, represented structurally as character lists. -/
abbrev Str := List Char

/-- First-match lookup in an association list (JS `Map.get`). -/
def lookupKV {ε : Type} (k : Str) : List (Str × ε) → Option ε
  | [] => none
  | (k2, v) :: rest => if k2 = k then some v else lookupKV k rest

/-- JS `Map.set`: replace the entry for `k` if present, else append. -/
def insertKV {ε : Type} (k : Str) (v : ε) : List (Str × ε) → List (Str × ε)
  | [] => [(k, v)]
  | (k2, w) :: rest =>
    if k2 = k then (k, v) :: rest else (k2, w) :: insertKV k v rest

/-- JS `Map.delete`: remove the entry for `k`. -/
def removeKV {ε : Type} (k : Str) : List (Str × ε) → List (Str × ε)
  | [] => []
  | (k2, w) :: rest =>
    if k2 = k then rest else (k2, w) :: removeKV k rest

/-! ## Rate limiter (`src/lib/redis/rate-limit.ts`) -/

/-- `RateLimitConfig` from rate-limit.ts.  `keyPref` embeds the source field
`keyPrefix` (with its default `"rl"` supplied at call sites). -/
structure RateLimitConfig where
  limit : Nat
  windowInSeconds : Nat
  keyPref : Str
  deriving Repr, DecidableEq

/-- `RateLimitResult` from rate-limit.ts.  `remaining` is an integer because
the source computes `Math.max(0, limit - count)` over JS numbers. -/
structure RateLimitResult where
  success : Bool
  remaining : Int
  reset : Nat
  limit : Nat
  deriving Repr, DecidableEq

/-- Entry of the Redis store under a rate-limit key: the counter value and
its absolute expiry instant (unix seconds). -/
structure RedisCounter where
  count : Nat
  expiresAt : Nat
  deriving Repr, DecidableEq

/-- Redis keyspace holding the rate-limit counters. -/
abbrev RedisRL := List (Str × RedisCounter)

/-- Entry of the in-memory fallback store `memoryStore`:
`{ count: number; reset: number }`, `reset` in milliseconds. -/
structure MemRLEntry where
  count : Nat
  reset : Nat
  deriving Repr, DecidableEq

/-- The in-memory fallback store `memoryStore` of rate-limit.ts. -/
abbrev MemRL := List (Str × MemRLEntry)

/-- `cleanupMemoryStore()` of rate-limit.ts: delete every entry whose
`reset` (ms) is strictly before `Date.now()`. -/
def cleanupMemoryStore (tms : Nat) (st : MemRL) : MemRL :=
  st.filter (fun e => !decide (e.2.reset < tms))

/-- The Redis pipeline `incr(key); expire(key, windowInSeconds)` of
rate-limit.ts.  `INCR` creates the key at 1 when it is absent or expired,
otherwise adds one; `EXPIRE` then resets the TTL to `windowInSeconds`.
Returns the count reported by `INCR` together with the new store. -/
def incrExpire (key : Str) (now w : Nat) (st : RedisRL) : Nat × RedisRL :=
  let c := match lookupKV key st with
    | some e => if now < e.expiresAt then e.count + 1 else 1
    | none => 1
  (c, insertKV key ⟨c, now + w⟩ st)

/-- The Redis branch of `rateLimit` (rate-limit.ts lines 53-67), at
unix-seconds clock `now`. -/
def rateLimitRedis (identifier : Str) (cfg : RateLimitConfig) (now : Nat)
    (st : RedisRL) : RateLimitResult × RedisRL :=
  let key := cfg.keyPref ++ ':' :: identifier
  let ws := now / cfg.windowInSeconds * cfg.windowInSeconds
  let rs := ws + cfg.windowInSeconds
  let r := incrExpire key now cfg.windowInSeconds st
  (⟨decide (r.1 ≤ cfg.limit), max 0 ((cfg.limit : Int) - (r.1 : Int)),
    rs, cfg.limit⟩, r.2)

/-- The in-memory branch of `rateLimit` (rate-limit.ts lines 70-94), at
millisecond clock `tms` (`Date.now()`); the source derives
`now = Math.floor(Date.now() / 1000)`. -/
def rateLimitMemory (identifier : Str) (cfg : RateLimitConfig) (tms : Nat)
    (st : MemRL) : RateLimitResult × MemRL :=
  let key := cfg.keyPref ++ ':' :: identifier
  let now := tms / 1000
  let ws := now / cfg.windowInSeconds * cfg.windowInSeconds
  let rs := ws + cfg.windowInSeconds
  let st1 := cleanupMemoryStore tms st
  match lookupKV key st1 with
  | none =>
    (⟨true, (cfg.limit : Int) - 1, rs, cfg.limit⟩,
      insertKV key ⟨1, rs * 1000⟩ st1)
  | some e =>
    if e.reset < tms then
      (⟨true, (cfg.limit : Int) - 1, rs, cfg.limit⟩,
        insertKV key ⟨1, rs * 1000⟩ st1)
    else
      (⟨decide (e.count + 1 ≤ cfg.limit),
        max 0 ((cfg.limit : Int) - (e.count + 1 : Nat)),
        e.reset / 1000, cfg.limit⟩,
        insertKV key ⟨e.count + 1, e.reset⟩ st1)

/-- A JS `Map` never holds two entries with the same key; association
lists representing reachable map states have pairwise distinct keys. -/
def DistinctKeys {ε : Type} (l : List (Str × ε)) : Prop :=
  (l.map Prod.fst).Nodup

/-- A sequence of `rateLimit` calls on the Redis branch, one per listed
call instant, threading the store; returns the results in order. -/
def rateLimitRedisRun (identifier : Str) (cfg : RateLimitConfig) :
    List Nat → RedisRL → List RateLimitResult × RedisRL
  | [], st => ([], st)
  | t :: ts, st =>
    let r := rateLimitRedis identifier cfg t st
    let rest := rateLimitRedisRun identifier cfg ts r.2
    (r.1 :: rest.1, rest.2)

/-- A sequence of `rateLimit` calls on the in-memory branch, one per
listed call instant (milliseconds), threading the store. -/
def rateLimitMemoryRun (identifier : Str) (cfg : RateLimitConfig) :
    List Nat → MemRL → List RateLimitResult × MemRL
  | [], st => ([], st)
  | t :: ts, st =>
    let r := rateLimitMemory identifier cfg t st
    let rest := rateLimitMemoryRun identifier cfg ts r.2
    (r.1 :: rest.1, rest.2)

/-- States of `memoryStore` reachable by the code: every stored `reset` is
the millisecond window-end `floor(floor(t0/1000) / w) * w + w` of some call
instant `t0 ≤ tms` (rate-limit.ts always stores `reset * 1000` with
`reset = windowStart + windowInSeconds`). -/
def MemRLInv (w tms : Nat) (st : MemRL) : Prop :=
  ∀ p ∈ st, ∃ t0, t0 ≤ tms ∧
    p.2.reset = (t0 / 1000 / w * w + w) * 1000

/-! ## Cache façade (`src/lib/redis/cache.ts`)

The source functions `getOrSet`, `get`, `set`, `del`, `delPattern` each
branch on `getRedis()`; the two branches are embedded as the `RCache`
(durable) and `MCache` (ephemeral) operations below. -/

/-- Entry of the Redis store under a cache key: the stored payload string
and its absolute expiry instant (unix seconds), as set by `SETEX`. -/
structure RedisEntry where
  value : Str
  expiresAt : Nat
  deriving Repr, DecidableEq

/-- Redis keyspace holding the cache entries. -/
abbrev RedisKV := List (Str × RedisEntry)

/-- Redis `GET`: the payload if the key exists and is not expired. -/
def redisGet (now : Nat) (k : Str) (st : RedisKV) : Option Str :=
  match lookupKV k st with
  | some e => if now < e.expiresAt then some e.value else none
  | none => none

/-- Redis `SETEX key ttl value`. -/
def redisSetex (now : Nat) (k : Str) (ttl : Nat) (v : Str) (st : RedisKV) :
    RedisKV :=
  insertKV k ⟨v, now + ttl⟩ st

/-- Redis glob matching as used by `KEYS`, for the patterns this codebase
produces: `*` matches any substring, every other character is literal. -/
def globMatch : Str → Str → Bool
  | [], s => s.isEmpty
  | p :: ps, s =>
    if p = '*' then
      globMatch ps s ||
        (match s with
         | [] => false
         | _ :: s2 => globMatch (p :: ps) s2)
    else
      match s with
      | [] => false
      | c :: s2 => decide (p = c) && globMatch ps s2
  termination_by p s => (s.length, p.length)

/-- Redis `KEYS pattern`: the keys of the live entries matching the
pattern (expired entries are never reported). -/
def redisKeysCmd (now : Nat) (pat : Str) (st : RedisKV) : List Str :=
  (st.filter (fun e => globMatch pat e.1 && decide (now < e.2.expiresAt))).map
    Prod.fst

/-- Redis `DEL k1 k2 ...` over a list of keys. -/
def redisDelList (ks : List Str) (st : RedisKV) : RedisKV :=
  st.filter (fun e => !decide (e.1 ∈ ks))

/-- Entry of the in-memory fallback map `memoryCache`:
`{ data: unknown; expiry: number }`, `expiry` in milliseconds.  The
ephemeral path stores the value itself, unserialized. -/
structure MemEntry (α : Type) where
  data : α
  expiry : Nat
  deriving Repr, DecidableEq

/-- The in-memory fallback map `memoryCache` of cache.ts, at value type
`α`. -/
abbrev MemKV (α : Type) := List (Str × MemEntry α)

/-- `cleanupMemoryCache()` of cache.ts: delete every entry whose `expiry`
(ms) is strictly before `Date.now()`. -/
def cleanupMemoryCache {α : Type} (tms : Nat) (st : MemKV α) : MemKV α :=
  st.filter (fun e => !decide (e.2.expiry < tms))

/-- The full key `` `${keyPrefix}:${key}` `` used by every cache
operation. -/
def fullKey (kp key : Str) : Str := kp ++ ':' :: key

namespace RCache

/-- Redis branch of cache.ts `get` (lines 73-88): a falsy (absent, expired
or empty) payload is a miss, and `JSON.parse` failure (`dec` returning
`none`) is caught and turned into `none`. -/
def get {α : Type} (dec : Str → Option α) (key : Str) (kp : Str) (now : Nat)
    (st : RedisKV) : Option α :=
  match redisGet now (fullKey kp key) st with
  | none => none
  | some s => if s.isEmpty then none else dec s

/-- Redis branch of cache.ts `getOrSet` (lines 36-50).  The pure `fetcher`
value stands for the awaited result of the producer; the returned `Bool`
records whether the producer was invoked. -/
def getOrSet {α : Type} (enc : α → Str) (dec : Str → Option α) (key : Str)
    (fetcher : α) (ttl : Nat) (kp : Str) (now : Nat) (st : RedisKV) :
    α × Bool × RedisKV :=
  let fk := fullKey kp key
  let hit : Option α := match redisGet now fk st with
    | none => none
    | some s => if s.isEmpty then none else dec s
  match hit with
  | some v => (v, false, st)
  | none => (fetcher, true, redisSetex now fk ttl (enc fetcher) st)

/-- Redis branch of cache.ts `set` (lines 108-111): `SETEX` of the encoded
value. -/
def set {α : Type} (enc : α → Str) (key : Str) (v : α) (ttl : Nat)
    (kp : Str) (now : Nat) (st : RedisKV) : RedisKV :=
  redisSetex now (fullKey kp key) ttl (enc v) st

/-- Redis branch of cache.ts `delPattern` (lines 150-156): `KEYS` on the
full pattern, then `DEL` of the reported keys. -/
def delPattern (pat : Str) (kp : Str) (now : Nat) (st : RedisKV) : RedisKV :=
  redisDelList (redisKeysCmd now (fullKey kp pat) st) st

end RCache

/-- JS `"x".replace("*", "")`: remove the first occurrence of `*`. -/
def stripFirstStar : Str → Str
  | [] => []
  | c :: cs => if c = '*' then cs else c :: stripFirstStar cs

/-- JS `String.prototype.startsWith`. -/
def isPrefixL : Str → Str → Bool
  | [], _ => true
  | _ :: _, [] => false
  | p :: ps, c :: cs => decide (p = c) && isPrefixL ps cs

namespace MCache

/-- Ephemeral branch of cache.ts `get` (lines 90-95): plain lookup with a
liveness check; note that this branch performs no cleanup sweep and leaves
the map unchanged (the map is returned to make that explicit). -/
def get {α : Type} (key : Str) (kp : Str) (tms : Nat) (st : MemKV α) :
    Option α × MemKV α :=
  match lookupKV (fullKey kp key) st with
  | some e => if tms < e.expiry then (some e.data, st) else (none, st)
  | none => (none, st)

/-- Ephemeral branch of cache.ts `getOrSet` (lines 52-68): sweep, then
lookup with liveness check, else invoke the producer and store its result
with expiry `Date.now() + ttl * 1000`. -/
def getOrSet {α : Type} (key : Str) (fetcher : α) (ttl : Nat) (kp : Str)
    (tms : Nat) (st : MemKV α) : α × Bool × MemKV α :=
  let fk := fullKey kp key
  let st1 := cleanupMemoryCache tms st
  let hit : Option α := match lookupKV fk st1 with
    | some e => if tms < e.expiry then some e.data else none
    | none => none
  match hit with
  | some v => (v, false, st1)
  | none => (fetcher, true, insertKV fk ⟨fetcher, tms + ttl * 1000⟩ st1)

/-- Ephemeral branch of cache.ts `set` (lines 113-120): unconditional
insert, no sweep. -/
def set {α : Type} (key : Str) (v : α) (ttl : Nat) (kp : Str) (tms : Nat)
    (st : MemKV α) : MemKV α :=
  insertKV (fullKey kp key) ⟨v, tms + ttl * 1000⟩ st

/-- Ephemeral branch of cache.ts `del` (lines 134-135): `Map.delete`, no
sweep. -/
def del {α : Type} (key : Str) (kp : Str) (st : MemKV α) : MemKV α :=
  removeKV (fullKey kp key) st

/-- Ephemeral branch of cache.ts `delPattern` (lines 158-165): strip the
first `*` from the full pattern and delete every key starting with the
remaining literal prefix; no sweep. -/
def delPattern {α : Type} (pat : Str) (kp : Str) (st : MemKV α) : MemKV α :=
  let pref := stripFirstStar (fullKey kp pat)
  st.filter (fun e => !isPrefixL pref e.1)

end MCache

/-- A concrete serialization pair standing in for `JSON.stringify` on
`Bool` when instantiating the abstract codec in witnesses (`true ↦ "t"`,
`false ↦ "f"`). -/
def encBool : Bool → Str := fun b => if b then ['t'] else ['f']

/-- The matching concrete deserialization for `encBool`; any other string
is a malformed payload (`JSON.parse` failure). -/
def decBool : Str → Option Bool := fun s =>
  if s = ['t'] then some true
  else if s = ['f'] then some false
  else none

/-! ## Backend selector (`src/lib/redis/client.ts`) -/

/-- The configuration surface read by `getRedis`: the enable flag and the
two connection credentials (absent or empty strings are falsy). -/
structure Env where
  USE_REDIS : Bool
  UPSTASH_REDIS_REST_URL : Option Str
  UPSTASH_REDIS_REST_TOKEN : Option Str
  deriving Repr, DecidableEq

/-- JS truthiness of an optional string. -/
def truthy : Option Str → Bool
  | none => false
  | some s => !s.isEmpty

/-- The `new Redis({url, token})` handle. -/
structure RedisHandle where
  url : Str
  token : Str
  deriving Repr, DecidableEq

/-- Module-level mutable state of client.ts: the `redis` variable, plus
observation counters for `console.warn` calls and `new Redis`
constructions. -/
structure ClientState where
  redis : Option RedisHandle
  warnCount : Nat
  constructions : Nat
  deriving Repr, DecidableEq

/-- The initial module state: `let redis: Redis | null = null`. -/
def ClientState.init : ClientState := ⟨none, 0, 0⟩

/-- `getRedis()` of client.ts (lines 11-28). -/
def getRedis (env : Env) (st : ClientState) :
    Option RedisHandle × ClientState :=
  if !env.USE_REDIS then (none, st)
  else if !truthy env.UPSTASH_REDIS_REST_URL ||
      !truthy env.UPSTASH_REDIS_REST_TOKEN then
    (none, { st with warnCount := st.warnCount + 1 })
  else
    match st.redis with
    | some r => (some r, st)
    | none =>
      let h : RedisHandle :=
        ⟨(env.UPSTASH_REDIS_REST_URL).getD [],
         (env.UPSTASH_REDIS_REST_TOKEN).getD []⟩
      (some h, { st with redis := some h,
                         constructions := st.constructions + 1 })

/-! ## Association-list lemmas -/

@[simp] theorem lookupKV_nil {ε : Type} (k : Str) :
    lookupKV (ε := ε) k [] = none := rfl

@[simp] theorem lookupKV_cons {ε : Type} (k k2 : Str) (v : ε)
    (rest : List (Str × ε)) :
    lookupKV k ((k2, v) :: rest) =
      if k2 = k then some v else lookupKV k rest := rfl

theorem lookupKV_insertKV_self {ε : Type} (k : Str) (v : ε)
    (l : List (Str × ε)) : lookupKV k (insertKV k v l) = some v := by
  induction l with
  | nil => simp [insertKV]
  | cons hd tl ih =>
    obtain ⟨k2, w⟩ := hd
    by_cases h : k2 = k <;> simp [insertKV, h, ih]

theorem lookupKV_insertKV_ne {ε : Type} (k k2 : Str) (v : ε)
    (l : List (Str × ε)) (h : k2 ≠ k) :
    lookupKV k (insertKV k2 v l) = lookupKV k l := by
  induction l with
  | nil => simp [insertKV, h]
  | cons hd tl ih =>
    obtain ⟨k3, w⟩ := hd
    by_cases h3 : k3 = k2
    · subst h3
      simp [insertKV, h, Ne.symm h]
    · by_cases h4 : k3 = k <;> simp [insertKV, h3, h4, ih, Ne.symm h]

/-- A lookup inside a filtered association list only returns entries that
pass the filter. -/
theorem lookupKV_filter_pass {ε : Type} (p : Str × ε → Bool) (k : Str)
    (l : List (Str × ε)) (e : ε)
    (h : lookupKV k (l.filter p) = some e) : p (k, e) = true := by
  induction l with
  | nil => simp at h
  | cons hd tl ih =>
    obtain ⟨k2, w⟩ := hd
    by_cases hp : p (k2, w) = true
    · rw [List.filter_cons, if_pos (by simpa using hp), lookupKV_cons] at h
      by_cases hk : k2 = k
      · subst hk
        rw [if_pos rfl] at h
        obtain rfl := Option.some.inj h
        exact hp
      · rw [if_neg hk] at h
        exact ih h
    · rw [List.filter_cons, if_neg (by simpa using hp)] at h
      exact ih h

/-- When the filter predicate depends on the key only, filtering commutes
with lookup. -/
theorem lookupKV_filter_key {ε : Type} (q : Str → Bool) (k : Str)
    (l : List (Str × ε)) :
    lookupKV k (l.filter (fun e => q e.1)) =
      if q k then lookupKV k l else none := by
  induction l with
  | nil => simp
  | cons hd tl ih =>
    obtain ⟨k2, w⟩ := hd
    by_cases hk : k2 = k
    · subst hk
      by_cases hq : q k2 <;> simp [List.filter_cons, hq, ih]
    · by_cases hq : q k2 <;> simp [List.filter_cons, hq, hk, ih]

/-- A successful lookup exhibits a member of the list. -/
theorem lookupKV_mem {ε : Type} (k : Str) (l : List (Str × ε)) (e : ε)
    (h : lookupKV k l = some e) : (k, e) ∈ l := by
  induction l with
  | nil => simp at h
  | cons hd tl ih =>
    obtain ⟨k2, w⟩ := hd
    by_cases hk : k2 = k
    · subst hk
      rw [lookupKV_cons, if_pos rfl] at h
      obtain rfl := Option.some.inj h
      exact List.mem_cons_self _ _
    · rw [lookupKV_cons, if_neg hk] at h
      exact List.mem_cons_of_mem _ (ih h)

/-- Members of `insertKV` are the inserted pair or members of the original
list. -/
theorem mem_insertKV {ε : Type} (k : Str) (v : ε) (l : List (Str × ε))
    (p : Str × ε) (h : p ∈ insertKV k v l) : p = (k, v) ∨ p ∈ l := by
  induction l with
  | nil => simpa [insertKV] using h
  | cons hd tl ih =>
    obtain ⟨k2, w⟩ := hd
    by_cases hk : k2 = k
    · subst hk
      rw [insertKV, if_pos rfl] at h
      rcases List.mem_cons.mp h with h1 | h1
      · exact Or.inl h1
      · exact Or.inr (List.mem_cons_of_mem _ h1)
    · rw [insertKV, if_neg hk] at h
      rcases List.mem_cons.mp h with h1 | h1
      · exact Or.inr (h1 ▸ List.mem_cons_self _ _)
      · rcases ih h1 with h2 | h2
        · exact Or.inl h2
        · exact Or.inr (List.mem_cons_of_mem _ h2)

/-- A first-match lookup survives filtering when the found entry passes the
filter. -/
theorem lookupKV_filter_of_pass {ε : Type} (p : Str × ε → Bool) (k : Str)
    (l : List (Str × ε)) (e : ε) (hl : lookupKV k l = some e)
    (hp : p (k, e) = true) : lookupKV k (l.filter p) = some e := by
  induction l with
  | nil => simp at hl
  | cons hd tl ih =>
    obtain ⟨k2, w⟩ := hd
    by_cases hk : k2 = k
    · subst hk
      rw [lookupKV_cons, if_pos rfl] at hl
      obtain rfl := Option.some.inj hl
      rw [List.filter_cons, if_pos (by simpa using hp), lookupKV_cons,
        if_pos rfl]
    · rw [lookupKV_cons, if_neg hk] at hl
      by_cases hp2 : p (k2, w) = true
      · rw [List.filter_cons, if_pos (by simpa using hp2), lookupKV_cons,
          if_neg hk]
        exact ih hl
      · rw [List.filter_cons, if_neg (by simpa using hp2)]
        exact ih hl

/-- The fixed window `[now/w*w, now/w*w + w)` containing `now` ends after
`now` and within `w` seconds of `now`. -/
theorem windowEnd_bounds (now w : Nat) (hw : 0 < w) :
    now < now / w * w + w ∧ now / w * w + w ≤ now + w := by
  constructor
  · have h1 : now % w < w := Nat.mod_lt _ hw
    have h2 : now / w * w + now % w = now := Nat.div_add_mod' now w
    calc now = now / w * w + now % w := h2.symm
      _ < now / w * w + w := Nat.add_lt_add_left h1 _
  · exact Nat.add_le_add_right (Nat.div_mul_le_self now w) w

/-- Entries surviving `cleanupMemoryStore` come from the original store. -/
theorem mem_cleanupMemoryStore (tms : Nat) (st : MemRL) (p : Str × MemRLEntry)
    (h : p ∈ cleanupMemoryStore tms st) : p ∈ st :=
  (List.mem_filter.mp h).1

/-- An entry found after `cleanupMemoryStore` has not expired. -/
theorem lookupKV_cleanupMemoryStore_live (tms : Nat) (st : MemRL) (k : Str)
    (e : MemRLEntry) (h : lookupKV k (cleanupMemoryStore tms st) = some e) :
    ¬ e.reset < tms := by
  have := lookupKV_filter_pass _ _ _ _ h
  simpa using this

/-- If the Redis branch of `getOrSet` reports that the producer ran, the
call was a miss: it returns the produced value and stores its encoding. -/
theorem rcGetOrSet_of_produced {α : Type} (enc : α → Str)
    (dec : Str → Option α) (key : Str) (f : α) (ttl : Nat) (kp : Str)
    (now : Nat) (st : RedisKV)
    (hp : (RCache.getOrSet enc dec key f ttl kp now st).2.1 = true) :
    RCache.getOrSet enc dec key f ttl kp now st =
      (f, true, redisSetex now (fullKey kp key) ttl (enc f) st) := by
  unfold RCache.getOrSet at hp ⊢
  cases hg : redisGet now (fullKey kp key) st with
  | none => simp [hg]
  | some s =>
    by_cases hs : s.isEmpty = true
    · simp [hg, hs]
    · cases hd : dec s with
      | none => simp [hg, hs, hd]
      | some v => simp [hg, hs, hd] at hp

/-- If the ephemeral branch of `getOrSet` reports that the producer ran,
the call was a miss: it returns the produced value and stores it in the
swept map. -/
theorem mcGetOrSet_of_produced {α : Type} (key : Str) (f : α) (ttl : Nat)
    (kp : Str) (tms : Nat) (st : MemKV α)
    (hp : (MCache.getOrSet key f ttl kp tms st).2.1 = true) :
    MCache.getOrSet key f ttl kp tms st =
      (f, true, insertKV (fullKey kp key) ⟨f, tms + ttl * 1000⟩
        (cleanupMemoryCache tms st)) := by
  unfold MCache.getOrSet at hp ⊢
  cases hl : lookupKV (fullKey kp key) (cleanupMemoryCache tms st) with
  | none => simp [hl]
  | some e =>
    by_cases ht : tms < e.expiry
    · simp [hl, ht] at hp
    · simp [hl, ht]

/-- Removing one key leaves lookups of other keys unchanged. -/
theorem lookupKV_removeKV_ne {ε : Type} (k k2 : Str) (l : List (Str × ε))
    (h : k2 ≠ k) : lookupKV k (removeKV k2 l) = lookupKV k l := by
  induction l with
  | nil => simp [removeKV]
  | cons hd tl ih =>
    obtain ⟨k3, w⟩ := hd
    by_cases h3 : k3 = k2
    · subst h3
      rw [removeKV, if_pos rfl, lookupKV_cons, if_neg h]
    · rw [removeKV, if_neg h3, lookupKV_cons, lookupKV_cons, ih]

/-- An entry found after `cleanupMemoryCache` has not expired. -/
theorem lookupKV_cleanupMemoryCache_live {α : Type} (tms : Nat)
    (st : MemKV α) (k : Str) (e : MemEntry α)
    (h : lookupKV k (cleanupMemoryCache tms st) = some e) :
    ¬ e.expiry < tms := by
  have := lookupKV_filter_pass _ _ _ _ h
  simpa using this

/-- The lazy expiry sweep of the ephemeral cache is idempotent. -/
theorem cleanupMemoryCache_idem {α : Type} (tms : Nat) (st : MemKV α) :
    cleanupMemoryCache tms (cleanupMemoryCache tms st) =
      cleanupMemoryCache tms st := by
  simp [cleanupMemoryCache, List.filter_filter]

/-- `*` alone matches every string. -/
theorem globMatch_star_any (s : Str) : globMatch ['*'] s = true := by
  induction s with
  | nil => simp [globMatch]
  | cons c s2 ih => simp [globMatch, ih]

/-- A star-free literal followed by a single trailing `*` matches exactly
the strings starting with the literal. -/
theorem globMatch_append_star (lit : Str) (hl : '*' ∉ lit) (s : Str) :
    globMatch (lit ++ ['*']) s = isPrefixL lit s := by
  induction lit generalizing s with
  | nil => simp [isPrefixL, globMatch_star_any]
  | cons c lit2 ih =>
    have hc : c ≠ '*' := fun h => hl (h ▸ List.mem_cons_self _ _)
    have hl2 : '*' ∉ lit2 := fun h => hl (List.mem_cons_of_mem _ h)
    cases s with
    | nil => simp [globMatch, isPrefixL, hc]
    | cons d s2 => simp [globMatch, isPrefixL, hc, ih hl2 s2]

/-- Stripping the first `*` from a star-free literal with a trailing `*`
recovers the literal. -/
theorem stripFirstStar_append_star (l : Str) (hl : '*' ∉ l) :
    stripFirstStar (l ++ ['*']) = l := by
  induction l with
  | nil => simp [stripFirstStar]
  | cons c l2 ih =>
    have hc : c ≠ '*' := fun h => hl (h ▸ List.mem_cons_self _ _)
    have hl2 : '*' ∉ l2 := fun h => hl (List.mem_cons_of_mem _ h)
    simp [stripFirstStar, hc, ih hl2]

/-- Keys reported by `KEYS` match the pattern. -/
theorem mem_redisKeysCmd (now : Nat) (pat : Str) (st : RedisKV) (rk : Str)
    (h : rk ∈ redisKeysCmd now pat st) : globMatch pat rk = true := by
  simp only [redisKeysCmd, List.mem_map] at h
  obtain ⟨e, he, rfl⟩ := h
  have h2 := (List.mem_filter.mp he).2
  simp only [Bool.and_eq_true, decide_eq_true_eq] at h2
  exact h2.1

/-- A live entry whose key matches the pattern is reported by `KEYS`. -/
theorem redisKeysCmd_mem (now : Nat) (pat : Str) (st : RedisKV) (rk : Str)
    (e : RedisEntry) (hmem : (rk, e) ∈ st) (hg : globMatch pat rk = true)
    (hlive : now < e.expiresAt) : rk ∈ redisKeysCmd now pat st := by
  simp only [redisKeysCmd, List.mem_map]
  exact ⟨(rk, e), List.mem_filter.mpr ⟨hmem, by simp [hg, hlive]⟩, rfl⟩

/-- Lookup misses when the key is absent from the key list. -/
theorem lookupKV_eq_none_of_not_mem {ε : Type} (k : Str)
    (l : List (Str × ε)) (h : k ∉ l.map Prod.fst) :
    lookupKV k l = none := by
  induction l with
  | nil => rfl
  | cons hd tl ih =>
    obtain ⟨k2, w⟩ := hd
    simp only [List.map_cons, List.mem_cons] at h
    push_neg at h
    rw [lookupKV_cons, if_neg (fun hh => h.1 hh.symm)]
    exact ih h.2

/-- A missing key is still missing after filtering. -/
theorem lookupKV_filter_of_none {ε : Type} (p : Str × ε → Bool) (k : Str)
    (l : List (Str × ε)) (h : lookupKV k l = none) :
    lookupKV k (l.filter p) = none := by
  induction l with
  | nil => simp
  | cons hd tl ih =>
    obtain ⟨k2, w⟩ := hd
    rw [lookupKV_cons] at h
    by_cases hk : k2 = k
    · rw [if_pos hk] at h
      exact absurd h (by simp)
    · rw [if_neg hk] at h
      rw [List.filter_cons]
      by_cases hp : p (k2, w) = true
      · rw [if_pos (by simpa using hp), lookupKV_cons, if_neg hk]
        exact ih h
      · rw [if_neg (by simpa using hp)]
        exact ih h

/-- In a duplicate-free map, a key whose (unique) entry fails the filter
is gone after filtering. -/
theorem lookupKV_filter_none_of_fail {ε : Type} (p : Str × ε → Bool)
    (k : Str) (l : List (Str × ε)) (e : ε) (hnd : DistinctKeys l)
    (hl : lookupKV k l = some e) (hp : p (k, e) = false) :
    lookupKV k (l.filter p) = none := by
  induction l with
  | nil => simp at hl
  | cons hd tl ih =>
    obtain ⟨k2, w⟩ := hd
    have hnd2 := List.nodup_cons.mp hnd
    by_cases hk : k2 = k
    · subst hk
      rw [lookupKV_cons, if_pos rfl] at hl
      obtain rfl := Option.some.inj hl
      rw [List.filter_cons, if_neg (by simpa using hp)]
      exact lookupKV_filter_of_none _ _ _
        (lookupKV_eq_none_of_not_mem _ _ hnd2.1)
    · rw [lookupKV_cons, if_neg hk] at hl
      rw [List.filter_cons]
      by_cases hpp : p (k2, w) = true
      · rw [if_pos (by simpa using hpp), lookupKV_cons, if_neg hk]
        exact ih hnd2.2 hl
      · rw [if_neg (by simpa using hpp)]
        exact ih hnd2.2 hl

/-- Normal form of the Redis rate-limit branch when the counter is absent
or expired: a fresh counter at 1 with a full TTL. -/
theorem rateLimitRedis_fresh (identifier : Str) (cfg : RateLimitConfig)
    (now : Nat) (st : RedisRL)
    (h : lookupKV (cfg.keyPref ++ ':' :: identifier) st = none ∨
      ∃ e : RedisCounter,
        lookupKV (cfg.keyPref ++ ':' :: identifier) st = some e ∧
        e.expiresAt ≤ now) :
    rateLimitRedis identifier cfg now st =
      (⟨decide (1 ≤ cfg.limit), max 0 ((cfg.limit : Int) - 1),
        now / cfg.windowInSeconds * cfg.windowInSeconds +
          cfg.windowInSeconds, cfg.limit⟩,
       insertKV (cfg.keyPref ++ ':' :: identifier)
         ⟨1, now + cfg.windowInSeconds⟩ st) := by
  rcases h with h | ⟨e, he, hexp⟩
  · simp [rateLimitRedis, incrExpire, h]
  · simp [rateLimitRedis, incrExpire, he, Nat.not_lt.mpr hexp]

/-- Normal form of the Redis rate-limit branch on a live counter: the
count advances by one and the TTL is refreshed. -/
theorem rateLimitRedis_live (identifier : Str) (cfg : RateLimitConfig)
    (now : Nat) (st : RedisRL) (e : RedisCounter)
    (he : lookupKV (cfg.keyPref ++ ':' :: identifier) st = some e)
    (hlive : now < e.expiresAt) :
    rateLimitRedis identifier cfg now st =
      (⟨decide (e.count + 1 ≤ cfg.limit),
        max 0 ((cfg.limit : Int) - ((e.count + 1 : Nat) : Int)),
        now / cfg.windowInSeconds * cfg.windowInSeconds +
          cfg.windowInSeconds, cfg.limit⟩,
       insertKV (cfg.keyPref ++ ':' :: identifier)
         ⟨e.count + 1, now + cfg.windowInSeconds⟩ st) := by
  simp [rateLimitRedis, incrExpire, he, hlive]

/-- Normal form of the in-memory rate-limit branch when no live counter
survives the sweep: a fresh counter at 1 holding the window end. -/
theorem rateLimitMemory_fresh (identifier : Str) (cfg : RateLimitConfig)
    (tms : Nat) (st : MemRL)
    (h : lookupKV (cfg.keyPref ++ ':' :: identifier)
      (cleanupMemoryStore tms st) = none) :
    rateLimitMemory identifier cfg tms st =
      (⟨true, (cfg.limit : Int) - 1,
        tms / 1000 / cfg.windowInSeconds * cfg.windowInSeconds +
          cfg.windowInSeconds, cfg.limit⟩,
       insertKV (cfg.keyPref ++ ':' :: identifier)
         ⟨1, (tms / 1000 / cfg.windowInSeconds * cfg.windowInSeconds +
           cfg.windowInSeconds) * 1000⟩
         (cleanupMemoryStore tms st)) := by
  simp [rateLimitMemory, h]

/-- Normal form of the in-memory rate-limit branch on a surviving,
unexpired counter: the count advances in place. -/
theorem rateLimitMemory_live (identifier : Str) (cfg : RateLimitConfig)
    (tms : Nat) (st : MemRL) (e : MemRLEntry)
    (he : lookupKV (cfg.keyPref ++ ':' :: identifier)
      (cleanupMemoryStore tms st) = some e)
    (hnl : ¬ e.reset < tms) :
    rateLimitMemory identifier cfg tms st =
      (⟨decide (e.count + 1 ≤ cfg.limit),
        max 0 ((cfg.limit : Int) - ((e.count + 1 : Nat) : Int)),
        e.reset / 1000, cfg.limit⟩,
       insertKV (cfg.keyPref ++ ':' :: identifier)
         ⟨e.count + 1, e.reset⟩ (cleanupMemoryStore tms st)) := by
  simp only [rateLimitMemory, he]
  rw [if_neg hnl]

/-! ## Claim theorems -/

/-- Claim C4: every call to rateLimit on a live counter raises the stored
count by exactly one, on both backends, even when the call is denied; an
identifier already at or over the limit inside a window is still counted
and stays denied. -/
theorem claim4_denied_consumes_slot (identifier : Str)
    (cfg : RateLimitConfig) (now tms : Nat) (rst : RedisRL) (mst : MemRL)
    (c exp : Nat) (me : MemRLEntry)
    (hR : lookupKV (cfg.keyPref ++ ':' :: identifier) rst = some ⟨c, exp⟩)
    (hRlive : now < exp)
    (hM : lookupKV (cfg.keyPref ++ ':' :: identifier) mst = some me)
    (hMlive : ¬ me.reset < tms) :
    lookupKV (cfg.keyPref ++ ':' :: identifier)
        (rateLimitRedis identifier cfg now rst).2 =
      some ⟨c + 1, now + cfg.windowInSeconds⟩ ∧
    (cfg.limit ≤ c → (rateLimitRedis identifier cfg now rst).1.success =
      false) ∧
    lookupKV (cfg.keyPref ++ ':' :: identifier)
        (rateLimitMemory identifier cfg tms mst).2 =
      some ⟨me.count + 1, me.reset⟩ ∧
    (cfg.limit ≤ me.count →
      (rateLimitMemory identifier cfg tms mst).1.success = false) := by
  have hM1 : lookupKV (cfg.keyPref ++ ':' :: identifier)
      (cleanupMemoryStore tms mst) = some me := by
    exact lookupKV_filter_of_pass _ _ _ _ hM (by simpa using hMlive)
  refine ⟨?_, ?_, ?_, ?_⟩
  · simp only [rateLimitRedis, incrExpire, hR, hRlive, if_true]
    simp [lookupKV_insertKV_self]
  · intro hle
    simp [rateLimitRedis, incrExpire, hR, hRlive]
    exact Nat.lt_succ_of_le hle
  · simp only [rateLimitMemory, hM1, hMlive, if_false]
    simp [lookupKV_insertKV_self]
  · intro hle
    simp [rateLimitMemory, hM1, hMlive]
    exact Nat.lt_succ_of_le hle

/-- Concrete instantiation of `claim4_denied_consumes_slot`: identifier
`"i"`, policy limit 2 / window 60, Redis counter already at 2 and live at
`now = 5`, memory counter already at 2 with reset instant 60000 ms at
`tms = 5000`. -/
theorem claim4_witness :
    lookupKV (['r', 'l'] ++ ':' :: ['i'])
        (rateLimitRedis ['i'] ⟨2, 60, ['r', 'l']⟩ 5
          [(['r', 'l'] ++ ':' :: ['i'], ⟨2, 30⟩)]).2 = some ⟨3, 65⟩ ∧
    (rateLimitRedis ['i'] ⟨2, 60, ['r', 'l']⟩ 5
        [(['r', 'l'] ++ ':' :: ['i'], ⟨2, 30⟩)]).1.success = false ∧
    lookupKV (['r', 'l'] ++ ':' :: ['i'])
        (rateLimitMemory ['i'] ⟨2, 60, ['r', 'l']⟩ 5000
          [(['r', 'l'] ++ ':' :: ['i'], ⟨2, 60000⟩)]).2 =
      some ⟨3, 60000⟩ ∧
    (rateLimitMemory ['i'] ⟨2, 60, ['r', 'l']⟩ 5000
        [(['r', 'l'] ++ ':' :: ['i'], ⟨2, 60000⟩)]).1.success = false := by
  have h := claim4_denied_consumes_slot ['i'] ⟨2, 60, ['r', 'l']⟩ 5 5000
    [(['r', 'l'] ++ ':' :: ['i'], ⟨2, 30⟩)]
    [(['r', 'l'] ++ ':' :: ['i'], ⟨2, 60000⟩)] 2 30 ⟨2, 60000⟩
    (by decide) (by decide) (by decide) (by decide)
  exact ⟨h.1, h.2.1 (by decide), h.2.2.1, h.2.2.2 (by decide)⟩

/-- Claim C10: on both backends the rate-limit result reports the
configured limit, a never-negative `remaining` equal to
`max 0 (limit - count)` for the stored current-window count, a `success`
flag equal to `count ≤ limit`, and a `reset` instant lying between `now`
and `now + windowInSeconds` (for the memory backend, over every reachable
store state, i.e. every state satisfying `MemRLInv`). -/
theorem claim10_result_invariants (identifier : Str) (cfg : RateLimitConfig)
    (now tms : Nat) (rst : RedisRL) (mst : MemRL)
    (hlim : 1 ≤ cfg.limit) (hw : 0 < cfg.windowInSeconds)
    (hinv : MemRLInv cfg.windowInSeconds tms mst) :
    (rateLimitRedis identifier cfg now rst).1.limit = cfg.limit ∧
    0 ≤ (rateLimitRedis identifier cfg now rst).1.remaining ∧
    (∃ c2, lookupKV (cfg.keyPref ++ ':' :: identifier)
        (rateLimitRedis identifier cfg now rst).2 =
          some ⟨c2, now + cfg.windowInSeconds⟩ ∧
      (rateLimitRedis identifier cfg now rst).1.remaining =
        max 0 ((cfg.limit : Int) - (c2 : Int)) ∧
      (rateLimitRedis identifier cfg now rst).1.success =
        decide (c2 ≤ cfg.limit)) ∧
    (rateLimitRedis identifier cfg now rst).1.reset =
      now / cfg.windowInSeconds * cfg.windowInSeconds +
        cfg.windowInSeconds ∧
    now ≤ (rateLimitRedis identifier cfg now rst).1.reset ∧
    (rateLimitRedis identifier cfg now rst).1.reset ≤
      now + cfg.windowInSeconds ∧
    (rateLimitMemory identifier cfg tms mst).1.limit = cfg.limit ∧
    0 ≤ (rateLimitMemory identifier cfg tms mst).1.remaining ∧
    (∃ e2 : MemRLEntry, lookupKV (cfg.keyPref ++ ':' :: identifier)
        (rateLimitMemory identifier cfg tms mst).2 = some e2 ∧
      (rateLimitMemory identifier cfg tms mst).1.remaining =
        max 0 ((cfg.limit : Int) - (e2.count : Int)) ∧
      (rateLimitMemory identifier cfg tms mst).1.success =
        decide (e2.count ≤ cfg.limit) ∧
      (rateLimitMemory identifier cfg tms mst).1.reset * 1000 =
        e2.reset) ∧
    tms / 1000 ≤ (rateLimitMemory identifier cfg tms mst).1.reset ∧
    (rateLimitMemory identifier cfg tms mst).1.reset ≤
      tms / 1000 + cfg.windowInSeconds ∧
    MemRLInv cfg.windowInSeconds tms
      (rateLimitMemory identifier cfg tms mst).2 := by
  obtain ⟨c2, hc2⟩ : ∃ c2, incrExpire (cfg.keyPref ++ ':' :: identifier)
      now cfg.windowInSeconds rst =
      (c2, insertKV (cfg.keyPref ++ ':' :: identifier)
        ⟨c2, now + cfg.windowInSeconds⟩ rst) := ⟨_, rfl⟩
  obtain ⟨hwb1, hwb2⟩ := windowEnd_bounds now cfg.windowInSeconds hw
  obtain ⟨hmb1, hmb2⟩ := windowEnd_bounds (tms / 1000) cfg.windowInSeconds hw
  have r1 : (rateLimitRedis identifier cfg now rst).1.limit = cfg.limit := by
    simp [rateLimitRedis, hc2]
  have r2 : 0 ≤ (rateLimitRedis identifier cfg now rst).1.remaining := by
    simp only [rateLimitRedis, hc2]
    exact le_max_left _ _
  have r3 : ∃ c3, lookupKV (cfg.keyPref ++ ':' :: identifier)
      (rateLimitRedis identifier cfg now rst).2 =
        some ⟨c3, now + cfg.windowInSeconds⟩ ∧
      (rateLimitRedis identifier cfg now rst).1.remaining =
        max 0 ((cfg.limit : Int) - (c3 : Int)) ∧
      (rateLimitRedis identifier cfg now rst).1.success =
        decide (c3 ≤ cfg.limit) := by
    refine ⟨c2, ?_, ?_, ?_⟩
    · simp only [rateLimitRedis, hc2]
      exact lookupKV_insertKV_self _ _ _
    · simp [rateLimitRedis, hc2]
    · simp [rateLimitRedis, hc2]
  have r4 : (rateLimitRedis identifier cfg now rst).1.reset =
      now / cfg.windowInSeconds * cfg.windowInSeconds +
        cfg.windowInSeconds := by
    simp [rateLimitRedis, hc2]
  have r5 : now ≤ (rateLimitRedis identifier cfg now rst).1.reset := by
    rw [r4]; exact le_of_lt hwb1
  have r6 : (rateLimitRedis identifier cfg now rst).1.reset ≤
      now + cfg.windowInSeconds := by
    rw [r4]; exact hwb2
  cases hM : lookupKV (cfg.keyPref ++ ':' :: identifier)
      (cleanupMemoryStore tms mst) with
  | none =>
    have hMe : rateLimitMemory identifier cfg tms mst =
        (⟨true, (cfg.limit : Int) - 1,
          tms / 1000 / cfg.windowInSeconds * cfg.windowInSeconds +
            cfg.windowInSeconds, cfg.limit⟩,
         insertKV (cfg.keyPref ++ ':' :: identifier)
           ⟨1, (tms / 1000 / cfg.windowInSeconds * cfg.windowInSeconds +
             cfg.windowInSeconds) * 1000⟩
           (cleanupMemoryStore tms mst)) := by
      simp only [rateLimitMemory, hM]
    refine ⟨r1, r2, r3, r4, r5, r6, ?_, ?_, ?_, ?_, ?_, ?_⟩
    · rw [hMe]
    · rw [hMe]
      show (0 : Int) ≤ (cfg.limit : Int) - 1
      omega
    · refine ⟨⟨1, (tms / 1000 / cfg.windowInSeconds * cfg.windowInSeconds +
        cfg.windowInSeconds) * 1000⟩, ?_, ?_, ?_, ?_⟩
      · rw [hMe]
        exact lookupKV_insertKV_self _ _ _
      · rw [hMe]
        show (cfg.limit : Int) - 1 =
          max 0 ((cfg.limit : Int) - ((1 : Nat) : Int))
        rw [Nat.cast_one]
        exact (max_eq_right (by omega)).symm
      · rw [hMe]
        exact (decide_eq_true hlim).symm
      · rw [hMe]
    · rw [hMe]
      exact le_of_lt hmb1
    · rw [hMe]
      exact hmb2
    · rw [hMe]
      intro p hp
      rcases mem_insertKV _ _ _ _ hp with h | h
      · subst h
        exact ⟨tms, le_refl _, rfl⟩
      · exact hinv p (mem_cleanupMemoryStore _ _ _ h)
  | some e =>
    have hnl : ¬ e.reset < tms :=
      lookupKV_cleanupMemoryStore_live _ _ _ _ hM
    have hmemb : ((cfg.keyPref ++ ':' :: identifier), e) ∈ mst :=
      mem_cleanupMemoryStore _ _ _ (lookupKV_mem _ _ _ hM)
    obtain ⟨t0, ht0, hres⟩ := hinv _ hmemb
    have hr1000 : e.reset / 1000 =
        t0 / 1000 / cfg.windowInSeconds * cfg.windowInSeconds +
          cfg.windowInSeconds := by
      rw [hres]
      exact Nat.mul_div_cancel _ (by norm_num)
    have hMe : rateLimitMemory identifier cfg tms mst =
        (⟨decide (e.count + 1 ≤ cfg.limit),
          max 0 ((cfg.limit : Int) - ((e.count + 1 : Nat) : Int)),
          e.reset / 1000, cfg.limit⟩,
         insertKV (cfg.keyPref ++ ':' :: identifier)
           ⟨e.count + 1, e.reset⟩ (cleanupMemoryStore tms mst)) := by
      simp only [rateLimitMemory, hM]
      rw [if_neg hnl]
    refine ⟨r1, r2, r3, r4, r5, r6, ?_, ?_, ?_, ?_, ?_, ?_⟩
    · rw [hMe]
    · rw [hMe]
      exact le_max_left _ _
    · refine ⟨⟨e.count + 1, e.reset⟩, ?_, ?_, ?_, ?_⟩
      · rw [hMe]
        exact lookupKV_insertKV_self _ _ _
      · rw [hMe]
      · rw [hMe]
      · rw [hMe]
        show e.reset / 1000 * 1000 = e.reset
        rw [hres, Nat.mul_div_cancel _ (by norm_num)]
    · rw [hMe]
      show tms / 1000 ≤ e.reset / 1000
      exact Nat.div_le_div_right (Nat.le_of_not_lt hnl)
    · rw [hMe]
      show e.reset / 1000 ≤ tms / 1000 + cfg.windowInSeconds
      rw [hr1000]
      have h1 : t0 / 1000 / cfg.windowInSeconds * cfg.windowInSeconds ≤
          t0 / 1000 := Nat.div_mul_le_self _ _
      have h2 : t0 / 1000 ≤ tms / 1000 := Nat.div_le_div_right ht0
      omega
    · rw [hMe]
      intro p hp
      rcases mem_insertKV _ _ _ _ hp with h | h
      · subst h
        exact ⟨t0, ht0, hres⟩
      · exact hinv p (mem_cleanupMemoryStore _ _ _ h)

/-- Concrete instantiation of `claim10_result_invariants`: policy limit 5 /
window 60, empty stores (which trivially satisfy `MemRLInv`), a Redis call
at `now = 130` and a memory call at `tms = 130000`. -/
theorem claim10_witness :
    (rateLimitRedis ['i'] ⟨5, 60, ['r', 'l']⟩ 130 []).1.reset = 180 ∧
    130 ≤ (rateLimitRedis ['i'] ⟨5, 60, ['r', 'l']⟩ 130 []).1.reset ∧
    0 ≤ (rateLimitMemory ['i'] ⟨5, 60, ['r', 'l']⟩ 130000 []).1.remaining ∧
    (rateLimitMemory ['i'] ⟨5, 60, ['r', 'l']⟩ 130000 []).1.reset ≤
      130000 / 1000 + 60 := by
  have h := claim10_result_invariants ['i'] ⟨5, 60, ['r', 'l']⟩ 130 130000
    [] [] (by decide) (by decide) (by intro p hp; simp at hp)
  exact ⟨h.2.2.2.1, h.2.2.2.2.1, h.2.2.2.2.2.2.2.1, h.2.2.2.2.2.2.2.2.2.2.1⟩

/-- Claim C2: on both backends, after `set` of key `K` with TTL `T`, `get`
of `K` returns the stored value at any time strictly less than `T` after
the set and `none` at any time at least `T` after the set (the abstract
codec must round-trip and produce a non-empty payload, as `JSON.stringify`
does); moreover no read ever returns an entry whose expiry has passed, in
any store state. -/
theorem claim2_ttl_expiry {α : Type} (enc : α → Str) (dec : Str → Option α)
    (key kp : Str) (v : α) (T : Nat) (tset tget tmset tmget : Nat)
    (rst : RedisKV) (mst : MemKV α)
    (hrt : dec (enc v) = some v) (hne : (enc v).isEmpty = false) :
    (tget < tset + T →
      RCache.get dec key kp tget (RCache.set enc key v T kp tset rst) =
        some v) ∧
    (tset + T ≤ tget →
      RCache.get dec key kp tget (RCache.set enc key v T kp tset rst) =
        none) ∧
    (tmget < tmset + T * 1000 →
      (MCache.get key kp tmget (MCache.set key v T kp tmset mst)).1 =
        some v) ∧
    (tmset + T * 1000 ≤ tmget →
      (MCache.get key kp tmget (MCache.set key v T kp tmset mst)).1 =
        none) ∧
    (∀ st : RedisKV, ∀ k : Str, ∀ e : RedisEntry,
      lookupKV (fullKey kp k) st = some e → e.expiresAt ≤ tget →
      RCache.get dec k kp tget st = none) ∧
    (∀ st : MemKV α, ∀ k : Str, ∀ e : MemEntry α,
      lookupKV (fullKey kp k) st = some e → e.expiry ≤ tmget →
      (MCache.get k kp tmget st).1 = none) := by
  refine ⟨?_, ?_, ?_, ?_, ?_, ?_⟩
  · intro hlt
    simp [RCache.get, RCache.set, redisGet, redisSetex,
      lookupKV_insertKV_self, hlt, hne, hrt]
  · intro hge
    simp [RCache.get, RCache.set, redisGet, redisSetex,
      lookupKV_insertKV_self, Nat.not_lt.mpr hge]
  · intro hlt
    simp [MCache.get, MCache.set, lookupKV_insertKV_self, hlt]
  · intro hge
    simp [MCache.get, MCache.set, lookupKV_insertKV_self,
      Nat.not_lt.mpr hge]
  · intro st k e hl hexp
    simp [RCache.get, redisGet, hl, Nat.not_lt.mpr hexp]
  · intro st k e hl hexp
    simp [MCache.get, hl, Nat.not_lt.mpr hexp]

/-- Concrete instantiation of `claim2_ttl_expiry`: the Boolean codec, key
`"k"`, prefix `"cache"` abbreviated to `"c"`, value `true`, TTL 300, set
at `t = 10` (seconds) / `t = 10000` (ms), read back just before and at the
expiry boundary. -/
theorem claim2_witness :
    (309 < 10 + 300 →
      RCache.get decBool ['k'] ['c'] 309
        (RCache.set encBool ['k'] true 300 ['c'] 10 []) = some true) ∧
    (10 + 300 ≤ 310 →
      RCache.get decBool ['k'] ['c'] 310
        (RCache.set encBool ['k'] true 300 ['c'] 10 []) = none) ∧
    (309999 < 10000 + 300 * 1000 →
      (MCache.get ['k'] ['c'] 309999
        (MCache.set ['k'] true 300 ['c'] 10000 [])).1 = some true) ∧
    (10000 + 300 * 1000 ≤ 310000 →
      (MCache.get ['k'] ['c'] 310000
        (MCache.set ['k'] true 300 ['c'] 10000 [])).1 = none) := by
  have h := claim2_ttl_expiry encBool decBool ['k'] ['c'] true 300
    10 309 10000 309999 [] [] (by decide) (by decide)
  have h2 := claim2_ttl_expiry encBool decBool ['k'] ['c'] true 300
    10 310 10000 310000 [] [] (by decide) (by decide)
  exact ⟨fun _ => h.1 (by decide), fun _ => h2.2.1 (by decide),
    fun _ => h.2.2.1 (by decide), fun _ => h2.2.2.2.1 (by decide)⟩

/-- Claim C7: a live stored payload that fails to decode makes `get`
return `none` (no error), and makes `getOrSet` behave exactly like a miss:
it invokes the producer, stores the fresh encoded result with the given
TTL, and returns it. -/
theorem claim7_malformed_payload {α : Type} (enc : α → Str)
    (dec : Str → Option α) (key kp : Str) (fetcher : α) (ttl now : Nat)
    (st : RedisKV) (s : Str) (exp : Nat)
    (hl : lookupKV (fullKey kp key) st = some ⟨s, exp⟩)
    (hlive : now < exp) (hbad : dec s = none) :
    RCache.get dec key kp now st = none ∧
    (RCache.getOrSet enc dec key fetcher ttl kp now st).1 = fetcher ∧
    (RCache.getOrSet enc dec key fetcher ttl kp now st).2.1 = true ∧
    lookupKV (fullKey kp key)
        (RCache.getOrSet enc dec key fetcher ttl kp now st).2.2 =
      some ⟨enc fetcher, now + ttl⟩ := by
  refine ⟨?_, ?_, ?_, ?_⟩
  · simp [RCache.get, redisGet, hl, hlive, hbad]
  · simp [RCache.getOrSet, redisGet, hl, hlive, hbad]
  · simp [RCache.getOrSet, redisGet, hl, hlive, hbad]
  · simp [RCache.getOrSet, redisGet, redisSetex, hl, hlive, hbad,
      lookupKV_insertKV_self]

/-- Concrete instantiation of `claim7_malformed_payload`: the stored
payload `"x"` is not decodable by `decBool`; the producer result `false`
is stored (as `"f"`) with TTL 300 and returned. -/
theorem claim7_witness :
    RCache.get decBool ['k'] ['c'] 5
        [(fullKey ['c'] ['k'], ⟨['x'], 100⟩)] = none ∧
    (RCache.getOrSet encBool decBool ['k'] false 300 ['c'] 5
        [(fullKey ['c'] ['k'], ⟨['x'], 100⟩)]).1 = false ∧
    (RCache.getOrSet encBool decBool ['k'] false 300 ['c'] 5
        [(fullKey ['c'] ['k'], ⟨['x'], 100⟩)]).2.1 = true ∧
    lookupKV (fullKey ['c'] ['k'])
        (RCache.getOrSet encBool decBool ['k'] false 300 ['c'] 5
          [(fullKey ['c'] ['k'], ⟨['x'], 100⟩)]).2.2 =
      some ⟨encBool false, 5 + 300⟩ :=
  claim7_malformed_payload encBool decBool ['k'] ['c'] false 300 5
    [(fullKey ['c'] ['k'], ⟨['x'], 100⟩)] ['x'] 100
    (by decide) (by decide) (by decide)

/-- Claim C3: on both backends, after a `getOrSet` that invoked its
producer, any further `getOrSet` for the same key within the TTL window
returns the first call's produced value and does not invoke its own
producer. -/
theorem claim3_get_or_set_within_ttl {α : Type} (enc : α → Str)
    (dec : Str → Option α) (key kp : Str) (f1 f2 : α)
    (ttl t1 t2 tms1 tms2 : Nat) (rst : RedisKV) (mst : MemKV α)
    (hrt : dec (enc f1) = some f1) (hne : (enc f1).isEmpty = false)
    (hprodR : (RCache.getOrSet enc dec key f1 ttl kp t1 rst).2.1 = true)
    (ht2 : t2 < t1 + ttl)
    (hprodM : (MCache.getOrSet key f1 ttl kp tms1 mst).2.1 = true)
    (htm2 : tms2 < tms1 + ttl * 1000) :
    (RCache.getOrSet enc dec key f2 ttl kp t2
        (RCache.getOrSet enc dec key f1 ttl kp t1 rst).2.2).1 = f1 ∧
    (RCache.getOrSet enc dec key f2 ttl kp t2
        (RCache.getOrSet enc dec key f1 ttl kp t1 rst).2.2).2.1 = false ∧
    (MCache.getOrSet key f2 ttl kp tms2
        (MCache.getOrSet key f1 ttl kp tms1 mst).2.2).1 = f1 ∧
    (MCache.getOrSet key f2 ttl kp tms2
        (MCache.getOrSet key f1 ttl kp tms1 mst).2.2).2.1 = false := by
  have hR := rcGetOrSet_of_produced enc dec key f1 ttl kp t1 rst hprodR
  have hM := mcGetOrSet_of_produced key f1 ttl kp tms1 mst hprodM
  have hlk : lookupKV (fullKey kp key)
      (cleanupMemoryCache tms2
        (insertKV (fullKey kp key) ⟨f1, tms1 + ttl * 1000⟩
          (cleanupMemoryCache tms1 mst))) =
      some ⟨f1, tms1 + ttl * 1000⟩ := by
    unfold cleanupMemoryCache
    exact lookupKV_filter_of_pass _ _ _ _
      (lookupKV_insertKV_self _ _ _) (by simp; omega)
  refine ⟨?_, ?_, ?_, ?_⟩
  · rw [hR]
    simp [RCache.getOrSet, redisGet, redisSetex, lookupKV_insertKV_self,
      ht2, hne, hrt]
  · rw [hR]
    simp [RCache.getOrSet, redisGet, redisSetex, lookupKV_insertKV_self,
      ht2, hne, hrt]
  · rw [hM]
    simp [MCache.getOrSet, hlk, htm2]
  · rw [hM]
    simp [MCache.getOrSet, hlk, htm2]

/-- Concrete instantiation of `claim3_get_or_set_within_ttl`: fresh key
`"k"`, first `getOrSet` producing `true` at `t = 0`, second `getOrSet`
with producer `false` at `t = 299` seconds (Redis) / 299999 ms (memory),
both within the 300-second TTL. -/
theorem claim3_witness :
    (RCache.getOrSet encBool decBool ['k'] false 300 ['c'] 299
        (RCache.getOrSet encBool decBool ['k'] true 300 ['c'] 0
          []).2.2).1 = true ∧
    (RCache.getOrSet encBool decBool ['k'] false 300 ['c'] 299
        (RCache.getOrSet encBool decBool ['k'] true 300 ['c'] 0
          []).2.2).2.1 = false ∧
    (MCache.getOrSet ['k'] false 300 ['c'] 299999
        (MCache.getOrSet ['k'] (true : Bool) 300 ['c'] 0 []).2.2).1 =
      true ∧
    (MCache.getOrSet ['k'] false 300 ['c'] 299999
        (MCache.getOrSet ['k'] (true : Bool) 300 ['c'] 0 []).2.2).2.1 =
      false :=
  claim3_get_or_set_within_ttl encBool decBool ['k'] ['c'] true false
    300 0 299 0 299999 [] [] (by decide) (by decide) (by decide)
    (by decide) (by decide) (by decide)

/-- Counterexample to claim C8: with the durable backend enabled but the
URL missing, two consecutive `getRedis` calls log the misconfiguration
warning twice — the code warns on every misconfigured call, not once per
process as the claim states. -/
theorem claim8_counterexample :
    ((getRedis ⟨true, none, some ['t']⟩
        (getRedis ⟨true, none, some ['t']⟩ ClientState.init).2).2).warnCount
      = 2 ∧
    ¬ ((getRedis ⟨true, none, some ['t']⟩
        (getRedis ⟨true, none, some ['t']⟩ ClientState.init).2).2).warnCount
      ≤ 1 := by
  refine ⟨?_, ?_⟩ <;> decide

/-- Claim C8, amended: `getRedis` never throws (it is a total function);
it returns `none` when the durable backend is disabled (leaving the state
untouched) and when it is enabled but a credential is missing, logging the
misconfiguration warning on every such call (not once per process); when
enabled and fully configured, every call returns a handle, consecutive
calls return the same handle, a call on a state that already holds the
handle constructs nothing, and the handle is constructed lazily exactly
once on first use. -/
theorem claim8_backend_selector_amended (env : Env) (st : ClientState)
    (r : RedisHandle) :
    (env.USE_REDIS = false → getRedis env st = (none, st)) ∧
    (env.USE_REDIS = true →
      (truthy env.UPSTASH_REDIS_REST_URL = false ∨
        truthy env.UPSTASH_REDIS_REST_TOKEN = false) →
      (getRedis env st).1 = none ∧
      ((getRedis env st).2).warnCount = st.warnCount + 1) ∧
    (env.USE_REDIS = true → truthy env.UPSTASH_REDIS_REST_URL = true →
      truthy env.UPSTASH_REDIS_REST_TOKEN = true →
      (getRedis env st).1.isSome = true ∧
      (getRedis env ((getRedis env st).2)).1 = (getRedis env st).1 ∧
      ((getRedis env ((getRedis env st).2)).2).constructions =
        ((getRedis env st).2).constructions ∧
      (st.redis = none →
        ((getRedis env st).2).constructions = st.constructions + 1) ∧
      (st.redis = some r → getRedis env st = (some r, st))) := by
  refine ⟨?_, ?_, ?_⟩
  · intro hd
    simp [getRedis, hd]
  · intro he hm
    rcases hm with hm | hm <;> simp [getRedis, he, hm]
  · intro he hu ht
    cases hs : st.redis with
    | none =>
      refine ⟨?_, ?_, ?_, ?_, ?_⟩ <;>
        simp [getRedis, he, hu, ht, hs]
    | some r2 =>
      refine ⟨?_, ?_, ?_, ?_, ?_⟩ <;>
        simp [getRedis, he, hu, ht, hs]

/-- Concrete instantiation of `claim8_backend_selector_amended`: a fully
configured environment from the initial module state (two calls, one
construction, same handle), and a disabled environment (no handle, state
untouched). -/
theorem claim8_witness :
    (getRedis ⟨true, some ['u'], some ['t']⟩ ClientState.init).1.isSome =
      true ∧
    (getRedis ⟨true, some ['u'], some ['t']⟩
        ((getRedis ⟨true, some ['u'], some ['t']⟩ ClientState.init).2)).1 =
      (getRedis ⟨true, some ['u'], some ['t']⟩ ClientState.init).1 ∧
    ((getRedis ⟨true, some ['u'], some ['t']⟩ ClientState.init).2).constructions =
      ClientState.init.constructions + 1 ∧
    getRedis ⟨false, none, none⟩ ClientState.init =
      (none, ClientState.init) := by
  have h := claim8_backend_selector_amended ⟨true, some ['u'], some ['t']⟩
    ClientState.init ⟨['u'], ['t']⟩
  have h2 := claim8_backend_selector_amended ⟨false, none, none⟩
    ClientState.init ⟨['u'], ['t']⟩
  obtain ⟨-, -, h3⟩ := h
  obtain ⟨hc1, hc2, hc3, hc4, -⟩ := h3 (by decide) (by decide) (by decide)
  exact ⟨hc1, hc2, hc4 (by decide), h2.1 (by decide)⟩

/-- Counterexample to claim C9: the direct ephemeral `get` performs no
sweep.  At `tms = 10`, a read of key `"x"` leaves the expired entry for
key `"d"` (expiry 5 < 10) in the map, contradicting the claim that every
read first removes every expired entry. -/
theorem claim9_counterexample :
    lookupKV (fullKey ['c'] ['d'])
        (MCache.get ['x'] ['c'] 10
          [(fullKey ['c'] ['d'], ⟨(false : Bool), 5⟩)]).2 =
      some ⟨false, 5⟩ ∧ (5 : Nat) < 10 := by
  refine ⟨?_, ?_⟩ <;> decide

/-- Claim C9, amended: on the ephemeral cache store, the `getOrSet` read
path first removes every expired entry before its own lookup (its
post-state never retains an entry whose expiry has passed), while the
direct `get` read performs no sweep and leaves the map unchanged (it only
checks its own entry's expiry), and the write operations `set` and `del`
never remove other keys' entries, expired or not. -/
theorem claim9_sweep_amended {α : Type} (key kp : Str) (f v : α)
    (ttl tms : Nat) (st : MemKV α) :
    MCache.getOrSet key f ttl kp tms st =
      MCache.getOrSet key f ttl kp tms (cleanupMemoryCache tms st) ∧
    (∀ k : Str, ∀ e : MemEntry α,
      lookupKV k (MCache.getOrSet key f ttl kp tms st).2.2 = some e →
      ¬ e.expiry < tms) ∧
    (MCache.get key kp tms st).2 = st ∧
    (∀ k : Str, k ≠ fullKey kp key →
      lookupKV k (MCache.set key v ttl kp tms st) = lookupKV k st) ∧
    (∀ k : Str, k ≠ fullKey kp key →
      lookupKV k (MCache.del key kp st) = lookupKV k st) := by
  refine ⟨?_, ?_, ?_, ?_, ?_⟩
  · unfold MCache.getOrSet
    rw [cleanupMemoryCache_idem]
  · intro k e hk
    simp only [MCache.getOrSet] at hk
    cases hl : lookupKV (fullKey kp key) (cleanupMemoryCache tms st) with
    | none =>
      simp only [hl] at hk
      by_cases hke : k = fullKey kp key
      · subst hke
        rw [lookupKV_insertKV_self] at hk
        obtain rfl := Option.some.inj hk
        show ¬ tms + ttl * 1000 < tms
        omega
      · rw [lookupKV_insertKV_ne _ _ _ _ (Ne.symm hke)] at hk
        exact lookupKV_cleanupMemoryCache_live _ _ _ _ hk
    | some e2 =>
      by_cases ht : tms < e2.expiry
      · simp only [hl, ht, if_true] at hk
        exact lookupKV_cleanupMemoryCache_live _ _ _ _ hk
      · simp only [hl, ht, if_false] at hk
        by_cases hke : k = fullKey kp key
        · subst hke
          rw [lookupKV_insertKV_self] at hk
          obtain rfl := Option.some.inj hk
          show ¬ tms + ttl * 1000 < tms
          omega
        · rw [lookupKV_insertKV_ne _ _ _ _ (Ne.symm hke)] at hk
          exact lookupKV_cleanupMemoryCache_live _ _ _ _ hk
  · unfold MCache.get
    cases hl : lookupKV (fullKey kp key) st with
    | none => simp [hl]
    | some e => by_cases ht : tms < e.expiry <;> simp [hl, ht]
  · intro k hk
    unfold MCache.set
    exact lookupKV_insertKV_ne _ _ _ _ (Ne.symm hk)
  · intro k hk
    unfold MCache.del
    exact lookupKV_removeKV_ne _ _ _ (Ne.symm hk)

/-- Concrete instantiation of `claim9_sweep_amended`: a map holding a live
entry for `"a"` and an expired entry for `"d"` at `tms = 10`; `getOrSet`
on `"k"` sweeps the expired entry, `get` and the writes do not. -/
theorem claim9_witness :
    (∀ k : Str, ∀ e : MemEntry Bool,
      lookupKV k (MCache.getOrSet ['k'] true 300 ['c'] 10
        [(fullKey ['c'] ['a'], ⟨true, 20⟩),
         (fullKey ['c'] ['d'], ⟨false, 5⟩)]).2.2 = some e →
      ¬ e.expiry < 10) ∧
    (MCache.get ['k'] ['c'] 10
        [(fullKey ['c'] ['a'], ⟨true, 20⟩),
         (fullKey ['c'] ['d'], ⟨false, 5⟩)]).2 =
      [(fullKey ['c'] ['a'], ⟨true, 20⟩),
       (fullKey ['c'] ['d'], ⟨false, 5⟩)] ∧
    lookupKV (fullKey ['c'] ['d'])
        (MCache.set ['k'] true 300 ['c'] 10
          [(fullKey ['c'] ['a'], ⟨true, 20⟩),
           (fullKey ['c'] ['d'], ⟨false, 5⟩)]) =
      lookupKV (fullKey ['c'] ['d'])
        [(fullKey ['c'] ['a'], ⟨true, 20⟩),
         (fullKey ['c'] ['d'], ⟨false, 5⟩)] := by
  have h := claim9_sweep_amended (α := Bool) ['k'] ['c'] true true 300 10
    [(fullKey ['c'] ['a'], ⟨true, 20⟩), (fullKey ['c'] ['d'], ⟨false, 5⟩)]
  exact ⟨h.2.1, h.2.2.1, h.2.2.2.1 (fullKey ['c'] ['d']) (by decide)⟩

/-- Claim C6: for a pattern made of a star-free literal prefix followed by
a single trailing `*`, `delPattern` removes exactly the keys beginning
with `{keyPrefix}:{literal}` on both backends: matching keys are no longer
readable afterwards, and non-matching keys keep their exact entry (hence
their `get` result). -/
theorem claim6_pattern_delete {α : Type} (dec2 : Str → Option α)
    (kp lit : Str) (now : Nat) (st : RedisKV) (mst : MemKV α)
    (hkp : '*' ∉ kp) (hlit : '*' ∉ lit) :
    (∀ rk : Str, isPrefixL (fullKey kp lit) rk = true →
      redisGet now rk (RCache.delPattern (lit ++ ['*']) kp now st) =
        none) ∧
    (∀ rk : Str, isPrefixL (fullKey kp lit) rk = false →
      lookupKV rk (RCache.delPattern (lit ++ ['*']) kp now st) =
        lookupKV rk st) ∧
    (∀ k : Str, isPrefixL (fullKey kp lit) (fullKey kp k) = true →
      RCache.get dec2 k kp now
        (RCache.delPattern (lit ++ ['*']) kp now st) = none) ∧
    (∀ k : Str, isPrefixL (fullKey kp lit) (fullKey kp k) = false →
      RCache.get dec2 k kp now
          (RCache.delPattern (lit ++ ['*']) kp now st) =
        RCache.get dec2 k kp now st) ∧
    (∀ rk : Str, isPrefixL (fullKey kp lit) rk = true →
      lookupKV rk (MCache.delPattern (lit ++ ['*']) kp mst) = none) ∧
    (∀ rk : Str, isPrefixL (fullKey kp lit) rk = false →
      lookupKV rk (MCache.delPattern (lit ++ ['*']) kp mst) =
        lookupKV rk mst) := by
  have hnp : '*' ∉ fullKey kp lit := by
    intro h
    simp only [fullKey, List.mem_append, List.mem_cons] at h
    rcases h with h | h | h
    · exact hkp h
    · exact absurd h (by decide)
    · exact hlit h
  have hpat : fullKey kp (lit ++ ['*']) = fullKey kp lit ++ ['*'] := by
    simp [fullKey]
  have hglobE : ∀ rk : Str, globMatch (fullKey kp (lit ++ ['*'])) rk =
      isPrefixL (fullKey kp lit) rk := by
    intro rk
    rw [hpat]
    exact globMatch_append_star _ hnp rk
  have hL : ∀ rk : Str,
      rk ∈ redisKeysCmd now (fullKey kp (lit ++ ['*'])) st →
      isPrefixL (fullKey kp lit) rk = true := by
    intro rk h
    rw [← hglobE rk]
    exact mem_redisKeysCmd _ _ _ _ h
  have hR1 : ∀ rk : Str, isPrefixL (fullKey kp lit) rk = true →
      redisGet now rk (RCache.delPattern (lit ++ ['*']) kp now st) =
        none := by
    intro rk hpre
    simp only [RCache.delPattern, redisDelList]
    cases hl : lookupKV rk (st.filter (fun e => !decide
        (e.1 ∈ redisKeysCmd now (fullKey kp (lit ++ ['*'])) st))) with
    | none => simp [redisGet, hl]
    | some e =>
      have hnotin : ¬ rk ∈ redisKeysCmd now (fullKey kp (lit ++ ['*'])) st := by
        have := lookupKV_filter_pass _ _ _ _ hl
        simpa using this
      have hmem : (rk, e) ∈ st :=
        (List.mem_filter.mp (lookupKV_mem _ _ _ hl)).1
      have hdead : ¬ now < e.expiresAt := fun hlive =>
        hnotin (redisKeysCmd_mem _ _ _ _ _ hmem
          (by rw [hglobE]; exact hpre) hlive)
      simp [redisGet, hl, hdead]
  have hR2 : ∀ rk : Str, isPrefixL (fullKey kp lit) rk = false →
      lookupKV rk (RCache.delPattern (lit ++ ['*']) kp now st) =
        lookupKV rk st := by
    intro rk hpre
    simp only [RCache.delPattern, redisDelList]
    rw [lookupKV_filter_key (fun k2 => !decide
      (k2 ∈ redisKeysCmd now (fullKey kp (lit ++ ['*'])) st)) rk st]
    have hnot : ¬ rk ∈ redisKeysCmd now (fullKey kp (lit ++ ['*'])) st :=
      fun h => absurd (hL rk h) (by simp [hpre])
    simp [hnot]
  have hM1 : ∀ rk : Str, isPrefixL (fullKey kp lit) rk = true →
      lookupKV rk (MCache.delPattern (lit ++ ['*']) kp mst) = none := by
    intro rk hpre
    simp only [MCache.delPattern]
    rw [lookupKV_filter_key (fun k2 => !isPrefixL
      (stripFirstStar (fullKey kp (lit ++ ['*']))) k2) rk mst]
    rw [hpat, stripFirstStar_append_star _ hnp, hpre]
    simp
  have hM2 : ∀ rk : Str, isPrefixL (fullKey kp lit) rk = false →
      lookupKV rk (MCache.delPattern (lit ++ ['*']) kp mst) =
        lookupKV rk mst := by
    intro rk hpre
    simp only [MCache.delPattern]
    rw [lookupKV_filter_key (fun k2 => !isPrefixL
      (stripFirstStar (fullKey kp (lit ++ ['*']))) k2) rk mst]
    rw [hpat, stripFirstStar_append_star _ hnp, hpre]
    simp
  refine ⟨hR1, hR2, ?_, ?_, hM1, hM2⟩
  · intro k hpre
    have h1 := hR1 (fullKey kp k) hpre
    simp [RCache.get, h1]
  · intro k hpre
    have h2 := hR2 (fullKey kp k) hpre
    simp [RCache.get, redisGet, h2]

/-- Concrete instantiation of `claim6_pattern_delete`, realizing the
spec's example: with entries under `a:1`, `a:2`, `b:1` (prefix `"c"`),
`delPattern "a:*"` removes `a:1` and `a:2` on both backends and leaves
`b:1` exactly as it was. -/
theorem claim6_witness :
    redisGet 0 (fullKey ['c'] ['a', ':', '1'])
        (RCache.delPattern (['a'] ++ ['*']) ['c'] 0
          [(fullKey ['c'] ['a', ':', '1'], ⟨['t'], 100⟩),
           (fullKey ['c'] ['a', ':', '2'], ⟨['f'], 100⟩),
           (fullKey ['c'] ['b', ':', '1'], ⟨['t'], 100⟩)]) = none ∧
    redisGet 0 (fullKey ['c'] ['a', ':', '2'])
        (RCache.delPattern (['a'] ++ ['*']) ['c'] 0
          [(fullKey ['c'] ['a', ':', '1'], ⟨['t'], 100⟩),
           (fullKey ['c'] ['a', ':', '2'], ⟨['f'], 100⟩),
           (fullKey ['c'] ['b', ':', '1'], ⟨['t'], 100⟩)]) = none ∧
    lookupKV (fullKey ['c'] ['b', ':', '1'])
        (RCache.delPattern (['a'] ++ ['*']) ['c'] 0
          [(fullKey ['c'] ['a', ':', '1'], ⟨['t'], 100⟩),
           (fullKey ['c'] ['a', ':', '2'], ⟨['f'], 100⟩),
           (fullKey ['c'] ['b', ':', '1'], ⟨['t'], 100⟩)]) =
      lookupKV (fullKey ['c'] ['b', ':', '1'])
        [(fullKey ['c'] ['a', ':', '1'], ⟨['t'], 100⟩),
         (fullKey ['c'] ['a', ':', '2'], ⟨['f'], 100⟩),
         (fullKey ['c'] ['b', ':', '1'], ⟨['t'], 100⟩)] ∧
    lookupKV (fullKey ['c'] ['a', ':', '1'])
        (MCache.delPattern (['a'] ++ ['*']) ['c']
          [(fullKey ['c'] ['a', ':', '1'], ⟨(true : Bool), 100⟩),
           (fullKey ['c'] ['a', ':', '2'], ⟨false, 100⟩),
           (fullKey ['c'] ['b', ':', '1'], ⟨true, 100⟩)]) = none ∧
    lookupKV (fullKey ['c'] ['a', ':', '2'])
        (MCache.delPattern (['a'] ++ ['*']) ['c']
          [(fullKey ['c'] ['a', ':', '1'], ⟨(true : Bool), 100⟩),
           (fullKey ['c'] ['a', ':', '2'], ⟨false, 100⟩),
           (fullKey ['c'] ['b', ':', '1'], ⟨true, 100⟩)]) = none ∧
    lookupKV (fullKey ['c'] ['b', ':', '1'])
        (MCache.delPattern (['a'] ++ ['*']) ['c']
          [(fullKey ['c'] ['a', ':', '1'], ⟨(true : Bool), 100⟩),
           (fullKey ['c'] ['a', ':', '2'], ⟨false, 100⟩),
           (fullKey ['c'] ['b', ':', '1'], ⟨true, 100⟩)]) =
      lookupKV (fullKey ['c'] ['b', ':', '1'])
        [(fullKey ['c'] ['a', ':', '1'], ⟨(true : Bool), 100⟩),
         (fullKey ['c'] ['a', ':', '2'], ⟨false, 100⟩),
         (fullKey ['c'] ['b', ':', '1'], ⟨true, 100⟩)] := by
  have h := claim6_pattern_delete (α := Bool) decBool ['c'] ['a'] 0
    [(fullKey ['c'] ['a', ':', '1'], ⟨['t'], 100⟩),
     (fullKey ['c'] ['a', ':', '2'], ⟨['f'], 100⟩),
     (fullKey ['c'] ['b', ':', '1'], ⟨['t'], 100⟩)]
    [(fullKey ['c'] ['a', ':', '1'], ⟨(true : Bool), 100⟩),
     (fullKey ['c'] ['a', ':', '2'], ⟨false, 100⟩),
     (fullKey ['c'] ['b', ':', '1'], ⟨true, 100⟩)]
    (by decide) (by decide)
  exact ⟨h.1 _ (by decide), h.1 _ (by decide), h.2.1 _ (by decide),
    h.2.2.2.2.1 _ (by decide), h.2.2.2.2.1 _ (by decide),
    h.2.2.2.2.2 _ (by decide)⟩

/-- Counterexample to claim C5 on the durable backend: five calls at
`t = 55..59` leave the counter at 5 with TTL expiring at 119 (the TTL is
refreshed to 60 s at every call).  At `t = 61` the window `[0, 60)` that
contained the counter's whole history has fully elapsed, yet the next call
is denied with `remaining = 0` instead of starting fresh with
`success = true` and `remaining = limit - 1 = 4`: the Redis-branch key
expires on TTL, not at the window boundary. -/
theorem claim5_counterexample :
    59 / 60 * 60 + 60 ≤ 61 ∧
    (rateLimitRedis ['i'] ⟨5, 60, ['r', 'l']⟩ 61
      (rateLimitRedis ['i'] ⟨5, 60, ['r', 'l']⟩ 59
        (rateLimitRedis ['i'] ⟨5, 60, ['r', 'l']⟩ 58
          (rateLimitRedis ['i'] ⟨5, 60, ['r', 'l']⟩ 57
            (rateLimitRedis ['i'] ⟨5, 60, ['r', 'l']⟩ 56
              (rateLimitRedis ['i'] ⟨5, 60, ['r', 'l']⟩ 55
                []).2).2).2).2).2).1 =
      ⟨false, 0, 120, 5⟩ := by
  refine ⟨?_, ?_⟩ <;> decide

/-- Claim C5, amended: the next call starts a fresh counter (count 1) with
`success = true` and `remaining = limit - 1`, regardless of how far over
the limit the previous count was, once the previous counter has expired on
its own backend's terms: on the ephemeral backend once its stored reset
instant is strictly in the past, and on the durable backend once its TTL
(refreshed to `windowInSeconds` at each call) has elapsed — the mere
passing of the window boundary is not sufficient there. -/
theorem claim5_window_reset_amended (identifier : Str)
    (cfg : RateLimitConfig) (now tms : Nat) (rst : RedisRL) (mst : MemRL)
    (hlim : 1 ≤ cfg.limit)
    (hR : lookupKV (cfg.keyPref ++ ':' :: identifier) rst = none ∨
      ∃ e : RedisCounter,
        lookupKV (cfg.keyPref ++ ':' :: identifier) rst = some e ∧
        e.expiresAt ≤ now)
    (hnd : DistinctKeys mst)
    (hM : lookupKV (cfg.keyPref ++ ':' :: identifier) mst = none ∨
      ∃ me : MemRLEntry,
        lookupKV (cfg.keyPref ++ ':' :: identifier) mst = some me ∧
        me.reset < tms) :
    (rateLimitRedis identifier cfg now rst).1.success = true ∧
    (rateLimitRedis identifier cfg now rst).1.remaining =
      (cfg.limit : Int) - 1 ∧
    lookupKV (cfg.keyPref ++ ':' :: identifier)
        (rateLimitRedis identifier cfg now rst).2 =
      some ⟨1, now + cfg.windowInSeconds⟩ ∧
    (rateLimitMemory identifier cfg tms mst).1.success = true ∧
    (rateLimitMemory identifier cfg tms mst).1.remaining =
      (cfg.limit : Int) - 1 ∧
    lookupKV (cfg.keyPref ++ ':' :: identifier)
        (rateLimitMemory identifier cfg tms mst).2 =
      some ⟨1, (tms / 1000 / cfg.windowInSeconds * cfg.windowInSeconds +
        cfg.windowInSeconds) * 1000⟩ := by
  have hRe := rateLimitRedis_fresh identifier cfg now rst hR
  have hMn : lookupKV (cfg.keyPref ++ ':' :: identifier)
      (cleanupMemoryStore tms mst) = none := by
    rcases hM with h | ⟨me, hme, hex⟩
    · exact lookupKV_filter_of_none _ _ _ h
    · exact lookupKV_filter_none_of_fail _ _ _ _ hnd hme (by simp [hex])
  have hMe := rateLimitMemory_fresh identifier cfg tms mst hMn
  refine ⟨?_, ?_, ?_, ?_, ?_, ?_⟩
  · simp only [hRe]
    exact decide_eq_true hlim
  · simp only [hRe]
    exact max_eq_right (by omega)
  · simp only [hRe]
    exact lookupKV_insertKV_self _ _ _
  · simp only [hMe]
  · simp only [hMe]
  · simp only [hMe]
    exact lookupKV_insertKV_self _ _ _

/-- Concrete instantiation of `claim5_window_reset_amended`: a Redis
counter at 7 whose TTL expired at 50 (call at `now = 61`), and a memory
counter at 9 whose reset instant 60000 ms is strictly before
`tms = 60001`; both restart at count 1 with `remaining = 4`. -/
theorem claim5_witness :
    (rateLimitRedis ['i'] ⟨5, 60, ['r', 'l']⟩ 61
        [(['r', 'l'] ++ ':' :: ['i'], ⟨7, 50⟩)]).1.success = true ∧
    (rateLimitRedis ['i'] ⟨5, 60, ['r', 'l']⟩ 61
        [(['r', 'l'] ++ ':' :: ['i'], ⟨7, 50⟩)]).1.remaining =
      (5 : Int) - 1 ∧
    lookupKV (['r', 'l'] ++ ':' :: ['i'])
        (rateLimitRedis ['i'] ⟨5, 60, ['r', 'l']⟩ 61
          [(['r', 'l'] ++ ':' :: ['i'], ⟨7, 50⟩)]).2 = some ⟨1, 121⟩ ∧
    (rateLimitMemory ['i'] ⟨5, 60, ['r', 'l']⟩ 60001
        [(['r', 'l'] ++ ':' :: ['i'], ⟨9, 60000⟩)]).1.success = true ∧
    (rateLimitMemory ['i'] ⟨5, 60, ['r', 'l']⟩ 60001
        [(['r', 'l'] ++ ':' :: ['i'], ⟨9, 60000⟩)]).1.remaining =
      (5 : Int) - 1 ∧
    lookupKV (['r', 'l'] ++ ':' :: ['i'])
        (rateLimitMemory ['i'] ⟨5, 60, ['r', 'l']⟩ 60001
          [(['r', 'l'] ++ ':' :: ['i'], ⟨9, 60000⟩)]).2 =
      some ⟨1, 120000⟩ := by
  have h := claim5_window_reset_amended ['i'] ⟨5, 60, ['r', 'l']⟩ 61 60001
    [(['r', 'l'] ++ ':' :: ['i'], ⟨7, 50⟩)]
    [(['r', 'l'] ++ ':' :: ['i'], ⟨9, 60000⟩)]
    (by decide)
    (Or.inr ⟨⟨7, 50⟩, by decide, by decide⟩)
    (by simp [DistinctKeys])
    (Or.inr ⟨⟨9, 60000⟩, by decide, by decide⟩)
  exact ⟨h.1, h.2.1, h.2.2.1, h.2.2.2.1, h.2.2.2.2.1, h.2.2.2.2.2⟩

/-- Claim C1: with policy limit 5 / window 60, a fresh identifier, and six
calls all inside one fixed window, the first five calls succeed with
`remaining` = 4, 3, 2, 1, 0 and the sixth is denied with `remaining = 0`,
on both the durable and the ephemeral backend. -/
theorem claim1_rate_limit_admission (identifier kp : Str)
    (t1 t2 t3 t4 t5 t6 m1 m2 m3 m4 m5 m6 : Nat)
    (rst : RedisRL) (mst : MemRL)
    (hfreshR : lookupKV (kp ++ ':' :: identifier) rst = none)
    (hw2 : t2 / 60 = t1 / 60) (hw3 : t3 / 60 = t1 / 60)
    (hw4 : t4 / 60 = t1 / 60) (hw5 : t5 / 60 = t1 / 60)
    (hw6 : t6 / 60 = t1 / 60)
    (hfreshM : lookupKV (kp ++ ':' :: identifier) mst = none)
    (hm2 : m2 / 1000 / 60 = m1 / 1000 / 60)
    (hm3 : m3 / 1000 / 60 = m1 / 1000 / 60)
    (hm4 : m4 / 1000 / 60 = m1 / 1000 / 60)
    (hm5 : m5 / 1000 / 60 = m1 / 1000 / 60)
    (hm6 : m6 / 1000 / 60 = m1 / 1000 / 60) :
    (rateLimitRedisRun identifier ⟨5, 60, kp⟩ [t1, t2, t3, t4, t5, t6]
        rst).1.map (fun r => (r.success, r.remaining)) =
      [(true, 4), (true, 3), (true, 2), (true, 1), (true, 0),
       (false, 0)] ∧
    (rateLimitMemoryRun identifier ⟨5, 60, kp⟩ [m1, m2, m3, m4, m5, m6]
        mst).1.map (fun r => (r.success, r.remaining)) =
      [(true, 4), (true, 3), (true, 2), (true, 1), (true, 0),
       (false, 0)] := by
  constructor
  · have h1 : rateLimitRedis identifier ⟨5, 60, kp⟩ t1 rst =
        (⟨true, 4, t1 / 60 * 60 + 60, 5⟩,
         insertKV (kp ++ ':' :: identifier) ⟨1, t1 + 60⟩ rst) := by
      rw [rateLimitRedis_fresh identifier ⟨5, 60, kp⟩ t1 rst
        (Or.inl hfreshR)]
      norm_num
    have h2 : rateLimitRedis identifier ⟨5, 60, kp⟩ t2
        (insertKV (kp ++ ':' :: identifier) ⟨1, t1 + 60⟩ rst) =
        (⟨decide (2 ≤ 5), max 0 ((5 : Int) - ((2 : Nat) : Int)),
          t2 / 60 * 60 + 60, 5⟩,
         insertKV (kp ++ ':' :: identifier) ⟨2, t2 + 60⟩
           (insertKV (kp ++ ':' :: identifier) ⟨1, t1 + 60⟩ rst)) := by
      rw [rateLimitRedis_live identifier ⟨5, 60, kp⟩ t2
        (insertKV (kp ++ ':' :: identifier) ⟨1, t1 + 60⟩ rst)
        ⟨1, t1 + 60⟩ (lookupKV_insertKV_self _ _ _)
        (show t2 < t1 + 60 by omega)]
      norm_num
    have h3 : rateLimitRedis identifier ⟨5, 60, kp⟩ t3
        (insertKV (kp ++ ':' :: identifier) ⟨2, t2 + 60⟩
          (insertKV (kp ++ ':' :: identifier) ⟨1, t1 + 60⟩ rst)) =
        (⟨decide (3 ≤ 5), max 0 ((5 : Int) - ((3 : Nat) : Int)),
          t3 / 60 * 60 + 60, 5⟩,
         insertKV (kp ++ ':' :: identifier) ⟨3, t3 + 60⟩
           (insertKV (kp ++ ':' :: identifier) ⟨2, t2 + 60⟩
             (insertKV (kp ++ ':' :: identifier) ⟨1, t1 + 60⟩ rst))) := by
      rw [rateLimitRedis_live identifier ⟨5, 60, kp⟩ t3 _ ⟨2, t2 + 60⟩
        (lookupKV_insertKV_self _ _ _) (show t3 < t2 + 60 by omega)]
      norm_num
    have h4 : rateLimitRedis identifier ⟨5, 60, kp⟩ t4
        (insertKV (kp ++ ':' :: identifier) ⟨3, t3 + 60⟩
          (insertKV (kp ++ ':' :: identifier) ⟨2, t2 + 60⟩
            (insertKV (kp ++ ':' :: identifier) ⟨1, t1 + 60⟩ rst))) =
        (⟨decide (4 ≤ 5), max 0 ((5 : Int) - ((4 : Nat) : Int)),
          t4 / 60 * 60 + 60, 5⟩,
         insertKV (kp ++ ':' :: identifier) ⟨4, t4 + 60⟩
           (insertKV (kp ++ ':' :: identifier) ⟨3, t3 + 60⟩
             (insertKV (kp ++ ':' :: identifier) ⟨2, t2 + 60⟩
               (insertKV (kp ++ ':' :: identifier) ⟨1, t1 + 60⟩
                 rst)))) := by
      rw [rateLimitRedis_live identifier ⟨5, 60, kp⟩ t4 _ ⟨3, t3 + 60⟩
        (lookupKV_insertKV_self _ _ _) (show t4 < t3 + 60 by omega)]
      norm_num
    have h5 : rateLimitRedis identifier ⟨5, 60, kp⟩ t5
        (insertKV (kp ++ ':' :: identifier) ⟨4, t4 + 60⟩
          (insertKV (kp ++ ':' :: identifier) ⟨3, t3 + 60⟩
            (insertKV (kp ++ ':' :: identifier) ⟨2, t2 + 60⟩
              (insertKV (kp ++ ':' :: identifier) ⟨1, t1 + 60⟩ rst)))) =
        (⟨decide (5 ≤ 5), max 0 ((5 : Int) - ((5 : Nat) : Int)),
          t5 / 60 * 60 + 60, 5⟩,
         insertKV (kp ++ ':' :: identifier) ⟨5, t5 + 60⟩
           (insertKV (kp ++ ':' :: identifier) ⟨4, t4 + 60⟩
             (insertKV (kp ++ ':' :: identifier) ⟨3, t3 + 60⟩
               (insertKV (kp ++ ':' :: identifier) ⟨2, t2 + 60⟩
                 (insertKV (kp ++ ':' :: identifier) ⟨1, t1 + 60⟩
                   rst))))) := by
      rw [rateLimitRedis_live identifier ⟨5, 60, kp⟩ t5 _ ⟨4, t4 + 60⟩
        (lookupKV_insertKV_self _ _ _) (show t5 < t4 + 60 by omega)]
      norm_num
    have h6 : rateLimitRedis identifier ⟨5, 60, kp⟩ t6
        (insertKV (kp ++ ':' :: identifier) ⟨5, t5 + 60⟩
          (insertKV (kp ++ ':' :: identifier) ⟨4, t4 + 60⟩
            (insertKV (kp ++ ':' :: identifier) ⟨3, t3 + 60⟩
              (insertKV (kp ++ ':' :: identifier) ⟨2, t2 + 60⟩
                (insertKV (kp ++ ':' :: identifier) ⟨1, t1 + 60⟩
                  rst))))) =
        (⟨decide (6 ≤ 5), max 0 ((5 : Int) - ((6 : Nat) : Int)),
          t6 / 60 * 60 + 60, 5⟩,
         insertKV (kp ++ ':' :: identifier) ⟨6, t6 + 60⟩
           (insertKV (kp ++ ':' :: identifier) ⟨5, t5 + 60⟩
             (insertKV (kp ++ ':' :: identifier) ⟨4, t4 + 60⟩
               (insertKV (kp ++ ':' :: identifier) ⟨3, t3 + 60⟩
                 (insertKV (kp ++ ':' :: identifier) ⟨2, t2 + 60⟩
                   (insertKV (kp ++ ':' :: identifier) ⟨1, t1 + 60⟩
                     rst)))))) := by
      rw [rateLimitRedis_live identifier ⟨5, 60, kp⟩ t6 _ ⟨5, t5 + 60⟩
        (lookupKV_insertKV_self _ _ _) (show t6 < t5 + 60 by omega)]
      norm_num
    simp only [rateLimitRedisRun, h1, h2, h3, h4, h5, h6, List.map]
    decide
  · have hs1 : lookupKV (kp ++ ':' :: identifier)
        (cleanupMemoryStore m1 mst) = none :=
      lookupKV_filter_of_none _ _ _ hfreshM
    have h1 : rateLimitMemory identifier ⟨5, 60, kp⟩ m1 mst =
        (⟨true, 4, m1 / 1000 / 60 * 60 + 60, 5⟩,
         insertKV (kp ++ ':' :: identifier)
           ⟨1, (m1 / 1000 / 60 * 60 + 60) * 1000⟩
           (cleanupMemoryStore m1 mst)) := by
      rw [rateLimitMemory_fresh identifier ⟨5, 60, kp⟩ m1 mst hs1]
      norm_num
    have hs2 : lookupKV (kp ++ ':' :: identifier)
        (cleanupMemoryStore m2
          (insertKV (kp ++ ':' :: identifier)
            ⟨1, (m1 / 1000 / 60 * 60 + 60) * 1000⟩
            (cleanupMemoryStore m1 mst))) =
        some ⟨1, (m1 / 1000 / 60 * 60 + 60) * 1000⟩ := by
      unfold cleanupMemoryStore
      exact lookupKV_filter_of_pass _ _ _ _ (lookupKV_insertKV_self _ _ _)
        (by simp only [Bool.not_eq_true']; simp only [decide_eq_false_iff_not]; omega)
    have h2 : rateLimitMemory identifier ⟨5, 60, kp⟩ m2
        (insertKV (kp ++ ':' :: identifier)
          ⟨1, (m1 / 1000 / 60 * 60 + 60) * 1000⟩
          (cleanupMemoryStore m1 mst)) =
        (⟨decide (2 ≤ 5), max 0 ((5 : Int) - ((2 : Nat) : Int)),
          (m1 / 1000 / 60 * 60 + 60) * 1000 / 1000, 5⟩,
         insertKV (kp ++ ':' :: identifier)
           ⟨2, (m1 / 1000 / 60 * 60 + 60) * 1000⟩
           (cleanupMemoryStore m2
             (insertKV (kp ++ ':' :: identifier)
               ⟨1, (m1 / 1000 / 60 * 60 + 60) * 1000⟩
               (cleanupMemoryStore m1 mst)))) := by
      rw [rateLimitMemory_live identifier ⟨5, 60, kp⟩ m2 _
        ⟨1, (m1 / 1000 / 60 * 60 + 60) * 1000⟩ hs2
        (show ¬ (m1 / 1000 / 60 * 60 + 60) * 1000 < m2 by omega)]
      norm_num
    have hs3 : lookupKV (kp ++ ':' :: identifier)
        (cleanupMemoryStore m3
          (insertKV (kp ++ ':' :: identifier)
            ⟨2, (m1 / 1000 / 60 * 60 + 60) * 1000⟩
            (cleanupMemoryStore m2
              (insertKV (kp ++ ':' :: identifier)
                ⟨1, (m1 / 1000 / 60 * 60 + 60) * 1000⟩
                (cleanupMemoryStore m1 mst))))) =
        some ⟨2, (m1 / 1000 / 60 * 60 + 60) * 1000⟩ := by
      unfold cleanupMemoryStore
      exact lookupKV_filter_of_pass _ _ _ _ (lookupKV_insertKV_self _ _ _)
        (by simp only [Bool.not_eq_true']; simp only [decide_eq_false_iff_not]; omega)
    have h3 : rateLimitMemory identifier ⟨5, 60, kp⟩ m3
        (insertKV (kp ++ ':' :: identifier)
          ⟨2, (m1 / 1000 / 60 * 60 + 60) * 1000⟩
          (cleanupMemoryStore m2
            (insertKV (kp ++ ':' :: identifier)
              ⟨1, (m1 / 1000 / 60 * 60 + 60) * 1000⟩
              (cleanupMemoryStore m1 mst)))) =
        (⟨decide (3 ≤ 5), max 0 ((5 : Int) - ((3 : Nat) : Int)),
          (m1 / 1000 / 60 * 60 + 60) * 1000 / 1000, 5⟩,
         insertKV (kp ++ ':' :: identifier)
           ⟨3, (m1 / 1000 / 60 * 60 + 60) * 1000⟩
           (cleanupMemoryStore m3
             (insertKV (kp ++ ':' :: identifier)
               ⟨2, (m1 / 1000 / 60 * 60 + 60) * 1000⟩
               (cleanupMemoryStore m2
                 (insertKV (kp ++ ':' :: identifier)
                   ⟨1, (m1 / 1000 / 60 * 60 + 60) * 1000⟩
                   (cleanupMemoryStore m1 mst)))))) := by
      rw [rateLimitMemory_live identifier ⟨5, 60, kp⟩ m3 _
        ⟨2, (m1 / 1000 / 60 * 60 + 60) * 1000⟩ hs3
        (show ¬ (m1 / 1000 / 60 * 60 + 60) * 1000 < m3 by omega)]
      norm_num
    have hs4 : lookupKV (kp ++ ':' :: identifier)
        (cleanupMemoryStore m4
          (insertKV (kp ++ ':' :: identifier)
            ⟨3, (m1 / 1000 / 60 * 60 + 60) * 1000⟩
            (cleanupMemoryStore m3
              (insertKV (kp ++ ':' :: identifier)
                ⟨2, (m1 / 1000 / 60 * 60 + 60) * 1000⟩
                (cleanupMemoryStore m2
                  (insertKV (kp ++ ':' :: identifier)
                    ⟨1, (m1 / 1000 / 60 * 60 + 60) * 1000⟩
                    (cleanupMemoryStore m1 mst))))))) =
        some ⟨3, (m1 / 1000 / 60 * 60 + 60) * 1000⟩ := by
      unfold cleanupMemoryStore
      exact lookupKV_filter_of_pass _ _ _ _ (lookupKV_insertKV_self _ _ _)
        (by simp only [Bool.not_eq_true']; simp only [decide_eq_false_iff_not]; omega)
    have h4 : rateLimitMemory identifier ⟨5, 60, kp⟩ m4
        (insertKV (kp ++ ':' :: identifier)
          ⟨3, (m1 / 1000 / 60 * 60 + 60) * 1000⟩
          (cleanupMemoryStore m3
            (insertKV (kp ++ ':' :: identifier)
              ⟨2, (m1 / 1000 / 60 * 60 + 60) * 1000⟩
              (cleanupMemoryStore m2
                (insertKV (kp ++ ':' :: identifier)
                  ⟨1, (m1 / 1000 / 60 * 60 + 60) * 1000⟩
                  (cleanupMemoryStore m1 mst)))))) =
        (⟨decide (4 ≤ 5), max 0 ((5 : Int) - ((4 : Nat) : Int)),
          (m1 / 1000 / 60 * 60 + 60) * 1000 / 1000, 5⟩,
         insertKV (kp ++ ':' :: identifier)
           ⟨4, (m1 / 1000 / 60 * 60 + 60) * 1000⟩
           (cleanupMemoryStore m4
             (insertKV (kp ++ ':' :: identifier)
               ⟨3, (m1 / 1000 / 60 * 60 + 60) * 1000⟩
               (cleanupMemoryStore m3
                 (insertKV (kp ++ ':' :: identifier)
                   ⟨2, (m1 / 1000 / 60 * 60 + 60) * 1000⟩
                   (cleanupMemoryStore m2
                     (insertKV (kp ++ ':' :: identifier)
                       ⟨1, (m1 / 1000 / 60 * 60 + 60) * 1000⟩
                       (cleanupMemoryStore m1 mst)))))))) := by
      rw [rateLimitMemory_live identifier ⟨5, 60, kp⟩ m4 _
        ⟨3, (m1 / 1000 / 60 * 60 + 60) * 1000⟩ hs4
        (show ¬ (m1 / 1000 / 60 * 60 + 60) * 1000 < m4 by omega)]
      norm_num
    have hs5 : lookupKV (kp ++ ':' :: identifier)
        (cleanupMemoryStore m5
          (insertKV (kp ++ ':' :: identifier)
            ⟨4, (m1 / 1000 / 60 * 60 + 60) * 1000⟩
            (cleanupMemoryStore m4
              (insertKV (kp ++ ':' :: identifier)
                ⟨3, (m1 / 1000 / 60 * 60 + 60) * 1000⟩
                (cleanupMemoryStore m3
                  (insertKV (kp ++ ':' :: identifier)
                    ⟨2, (m1 / 1000 / 60 * 60 + 60) * 1000⟩
                    (cleanupMemoryStore m2
                      (insertKV (kp ++ ':' :: identifier)
                        ⟨1, (m1 / 1000 / 60 * 60 + 60) * 1000⟩
                        (cleanupMemoryStore m1 mst))))))))) =
        some ⟨4, (m1 / 1000 / 60 * 60 + 60) * 1000⟩ := by
      unfold cleanupMemoryStore
      exact lookupKV_filter_of_pass _ _ _ _ (lookupKV_insertKV_self _ _ _)
        (by simp only [Bool.not_eq_true']; simp only [decide_eq_false_iff_not]; omega)
    have h5 : rateLimitMemory identifier ⟨5, 60, kp⟩ m5
        (insertKV (kp ++ ':' :: identifier)
          ⟨4, (m1 / 1000 / 60 * 60 + 60) * 1000⟩
          (cleanupMemoryStore m4
            (insertKV (kp ++ ':' :: identifier)
              ⟨3, (m1 / 1000 / 60 * 60 + 60) * 1000⟩
              (cleanupMemoryStore m3
                (insertKV (kp ++ ':' :: identifier)
                  ⟨2, (m1 / 1000 / 60 * 60 + 60) * 1000⟩
                  (cleanupMemoryStore m2
                    (insertKV (kp ++ ':' :: identifier)
                      ⟨1, (m1 / 1000 / 60 * 60 + 60) * 1000⟩
                      (cleanupMemoryStore m1 mst)))))))) =
        (⟨decide (5 ≤ 5), max 0 ((5 : Int) - ((5 : Nat) : Int)),
          (m1 / 1000 / 60 * 60 + 60) * 1000 / 1000, 5⟩,
         insertKV (kp ++ ':' :: identifier)
           ⟨5, (m1 / 1000 / 60 * 60 + 60) * 1000⟩
           (cleanupMemoryStore m5
             (insertKV (kp ++ ':' :: identifier)
               ⟨4, (m1 / 1000 / 60 * 60 + 60) * 1000⟩
               (cleanupMemoryStore m4
                 (insertKV (kp ++ ':' :: identifier)
                   ⟨3, (m1 / 1000 / 60 * 60 + 60) * 1000⟩
                   (cleanupMemoryStore m3
                     (insertKV (kp ++ ':' :: identifier)
                       ⟨2, (m1 / 1000 / 60 * 60 + 60) * 1000⟩
                       (cleanupMemoryStore m2
                         (insertKV (kp ++ ':' :: identifier)
                           ⟨1, (m1 / 1000 / 60 * 60 + 60) * 1000⟩
                           (cleanupMemoryStore m1 mst)))))))))) := by
      rw [rateLimitMemory_live identifier ⟨5, 60, kp⟩ m5 _
        ⟨4, (m1 / 1000 / 60 * 60 + 60) * 1000⟩ hs5
        (show ¬ (m1 / 1000 / 60 * 60 + 60) * 1000 < m5 by omega)]
      norm_num
    have hs6 : lookupKV (kp ++ ':' :: identifier)
        (cleanupMemoryStore m6
          (insertKV (kp ++ ':' :: identifier)
            ⟨5, (m1 / 1000 / 60 * 60 + 60) * 1000⟩
            (cleanupMemoryStore m5
              (insertKV (kp ++ ':' :: identifier)
                ⟨4, (m1 / 1000 / 60 * 60 + 60) * 1000⟩
                (cleanupMemoryStore m4
                  (insertKV (kp ++ ':' :: identifier)
                    ⟨3, (m1 / 1000 / 60 * 60 + 60) * 1000⟩
                    (cleanupMemoryStore m3
                      (insertKV (kp ++ ':' :: identifier)
                        ⟨2, (m1 / 1000 / 60 * 60 + 60) * 1000⟩
                        (cleanupMemoryStore m2
                          (insertKV (kp ++ ':' :: identifier)
                            ⟨1, (m1 / 1000 / 60 * 60 + 60) * 1000⟩
                            (cleanupMemoryStore m1 mst))))))))))) =
        some ⟨5, (m1 / 1000 / 60 * 60 + 60) * 1000⟩ := by
      unfold cleanupMemoryStore
      exact lookupKV_filter_of_pass _ _ _ _ (lookupKV_insertKV_self _ _ _)
        (by simp only [Bool.not_eq_true']; simp only [decide_eq_false_iff_not]; omega)
    have h6 : rateLimitMemory identifier ⟨5, 60, kp⟩ m6
        (insertKV (kp ++ ':' :: identifier)
          ⟨5, (m1 / 1000 / 60 * 60 + 60) * 1000⟩
          (cleanupMemoryStore m5
            (insertKV (kp ++ ':' :: identifier)
              ⟨4, (m1 / 1000 / 60 * 60 + 60) * 1000⟩
              (cleanupMemoryStore m4
                (insertKV (kp ++ ':' :: identifier)
                  ⟨3, (m1 / 1000 / 60 * 60 + 60) * 1000⟩
                  (cleanupMemoryStore m3
                    (insertKV (kp ++ ':' :: identifier)
                      ⟨2, (m1 / 1000 / 60 * 60 + 60) * 1000⟩
                      (cleanupMemoryStore m2
                        (insertKV (kp ++ ':' :: identifier)
                          ⟨1, (m1 / 1000 / 60 * 60 + 60) * 1000⟩
                          (cleanupMemoryStore m1 mst)))))))))) =
        (⟨decide (6 ≤ 5), max 0 ((5 : Int) - ((6 : Nat) : Int)),
          (m1 / 1000 / 60 * 60 + 60) * 1000 / 1000, 5⟩,
         insertKV (kp ++ ':' :: identifier)
           ⟨6, (m1 / 1000 / 60 * 60 + 60) * 1000⟩
           (cleanupMemoryStore m6
             (insertKV (kp ++ ':' :: identifier)
               ⟨5, (m1 / 1000 / 60 * 60 + 60) * 1000⟩
               (cleanupMemoryStore m5
                 (insertKV (kp ++ ':' :: identifier)
                   ⟨4, (m1 / 1000 / 60 * 60 + 60) * 1000⟩
                   (cleanupMemoryStore m4
                     (insertKV (kp ++ ':' :: identifier)
                       ⟨3, (m1 / 1000 / 60 * 60 + 60) * 1000⟩
                       (cleanupMemoryStore m3
                         (insertKV (kp ++ ':' :: identifier)
                           ⟨2, (m1 / 1000 / 60 * 60 + 60) * 1000⟩
                           (cleanupMemoryStore m2
                             (insertKV (kp ++ ':' :: identifier)
                               ⟨1, (m1 / 1000 / 60 * 60 + 60) * 1000⟩
                               (cleanupMemoryStore m1 mst)))))))))))) := by
      rw [rateLimitMemory_live identifier ⟨5, 60, kp⟩ m6 _
        ⟨5, (m1 / 1000 / 60 * 60 + 60) * 1000⟩ hs6
        (show ¬ (m1 / 1000 / 60 * 60 + 60) * 1000 < m6 by omega)]
      norm_num
    simp only [rateLimitMemoryRun, h1, h2, h3, h4, h5, h6, List.map]
    decide

/-- Concrete instantiation of `claim1_rate_limit_admission`: identifier
`"i"`, prefix `"rl"`, empty stores, six Redis calls at `t = 0..5` seconds
and six memory calls at `t = 0..5000` ms, all inside the window
`[0, 60)`. -/
theorem claim1_witness :
    (rateLimitRedisRun ['i'] ⟨5, 60, ['r', 'l']⟩ [0, 1, 2, 3, 4, 5]
        []).1.map (fun r => (r.success, r.remaining)) =
      [(true, 4), (true, 3), (true, 2), (true, 1), (true, 0),
       (false, 0)] ∧
    (rateLimitMemoryRun ['i'] ⟨5, 60, ['r', 'l']⟩
        [0, 1000, 2000, 3000, 4000, 5000] []).1.map
          (fun r => (r.success, r.remaining)) =
      [(true, 4), (true, 3), (true, 2), (true, 1), (true, 0),
       (false, 0)] :=
  claim1_rate_limit_admission ['i'] ['r', 'l'] 0 1 2 3 4 5
    0 1000 2000 3000 4000 5000 [] [] (by decide) (by decide) (by decide)
    (by decide) (by decide) (by decide) (by decide) (by decide)
    (by decide) (by decide) (by decide) (by decide)

end UrbanWheels
